import Mathlib

/-!
MaxLedControl: a shallow embedding of the MAX7219/MAX7221 driver.

The C++ class `LedControl` (src/src/MaxLedControl.cpp, MaxLedControl.h) is
embedded as a record of its fields plus two pieces of observation state:

* `bus`  : the chronological list of everything the driver did on its pins and
           on the SPI peripheral (the driver never reads from the bus);
* `oob`  : set as soon as `status` or `charTable` is indexed outside its
           allocated length (C++ undefined behaviour).

Conventions.
* `byte` is a `Nat` below 256.  An `int` expression handed to a `byte`
  parameter goes through `toByte`; a public member with a `byte` parameter
  reduces its argument modulo 256 on entry.
* `int` is an `Int`.  The width of `int` and the memory `new` can hand out are
  fixed by the platform, outside the repository, and are taken as the parameter
  `Platform` of the constructors: the size `maxDevices * 8` is computed in
  `int` with two's-complement wrap-around, and `new byte[...]` fails for a size
  that is negative or exceeds the heap, in which case the constructor yields no
  driver.  Inside the member functions every product and sum is formed only
  after the guards have placed the address inside the chain, so in a state
  whose buffer was allocated with `8 * maxDevices` bytes it stays below that
  size; where the constructor's product has wrapped, the first access outside
  the buffer sets `oob`, and a state with `oob` set stands for a run in which
  undefined behaviour has occurred.
* `char` is an 8-bit code, signed or unsigned according to the platform, so a
  character argument is an `Int` between -128 and 255.
* `for` loops are folds over the list of their indices, in iteration order;
  `maxDevices` is never assigned after construction, so a bound that the source
  re-reads on every iteration is read once.
* The base class `Adafruit_GFX`, the Arduino core (`pinMode`, `digitalWrite`,
  `shiftOut`) and `SPIClass` are outside the repository: their calls appear in
  the trace and have no other effect on the driver.  The base-class initialiser
  `Adafruit_GFX(numDevices * 8, 8)` forms its width in `int` too; the value
  goes to the base class only, and `Platform.fits` asks that it does not wrap.  The destructor and the
  `scroll` templates, which only call `clear` and the base class, are left out.
-/

namespace MaxLedControl

/-! ## Opcodes (MaxLedControl.h, lines 37-50) -/

def OP_NOOP : Nat := 0
def OP_DIGIT0 : Nat := 1
def OP_DECODEMODE : Nat := 9
def OP_INTENSITY : Nat := 10
def OP_SCANLIMIT : Nat := 11
def OP_SHUTDOWN : Nat := 12
def OP_DISPLAYTEST : Nat := 15

/-- Segment patterns for characters and digits (MaxLedControl.h, lines 56-73). -/
def charTable : List Nat :=
  [0b01111110,0b00110000,0b01101101,0b01111001,0b00110011,0b01011011,0b01011111,0b01110000,
   0b01111111,0b01111011,0b01110111,0b00011111,0b00001101,0b00111101,0b01001111,0b01000111,
   0b00000000,0b00000000,0b00000000,0b00000000,0b00000000,0b00000000,0b00000000,0b00000000,
   0b00000000,0b00000000,0b00000000,0b00000000,0b00000000,0b00000000,0b00000000,0b00000000,
   0b00000000,0b00000000,0b00000000,0b00000000,0b00000000,0b00000000,0b00000000,0b00000000,
   0b00000000,0b00000000,0b00000000,0b00000000,0b10000000,0b00000001,0b10000000,0b00000000,
   0b01111110,0b00110000,0b01101101,0b01111001,0b00110011,0b01011011,0b01011111,0b01110000,
   0b01111111,0b01111011,0b00000000,0b00000000,0b00000000,0b00000000,0b00000000,0b00000000,
   0b00000000,0b01110111,0b00011111,0b00001101,0b00111101,0b01001111,0b01000111,0b00000000,
   0b00110111,0b00000000,0b00000000,0b00000000,0b00001110,0b00000000,0b00000000,0b00000000,
   0b01100111,0b00000000,0b00000000,0b00000000,0b00000000,0b00000000,0b00000000,0b00000000,
   0b00000000,0b00000000,0b00000000,0b00000000,0b00000000,0b00000000,0b00000000,0b00001000,
   0b00000000,0b01110111,0b00011111,0b00001101,0b00111101,0b01001111,0b01000111,0b00000000,
   0b00110111,0b00000000,0b00000000,0b00000000,0b00001110,0b00000000,0b00010101,0b00011101,
   0b01100111,0b00000000,0b00000000,0b00000000,0b00000000,0b00000000,0b00000000,0b00000000,
   0b00000000,0b00000000,0b00000000,0b00000000,0b00000000,0b00000000,0b00000000,0b00000000]

/-! ## Observable actions -/

/-- One action of the driver on the outside world.  `level = true` is HIGH. -/
inductive BusEvent where
  | pinMode (pin : Int)
  | digitalWrite (pin : Int) (level : Bool)
  | spiBegin
  | beginTransaction
  | endTransaction
  | transfer (b : Nat)
  | shiftOut (dataPin clkPin : Int) (b : Nat)
  deriving DecidableEq, Repr

/-- The fields of `class LedControl` (MaxLedControl.h, lines 80-100), with the
trace of bus actions and the out-of-bounds flag. -/
structure LedControl where
  SPI_MOSI : Int
  SPI_CLK : Int
  SPI_CS : Int
  maxDevices : Int
  hardwareSPI : Bool
  status : List Nat
  bus : List BusEvent
  oob : Bool
  deriving DecidableEq, Repr

/-- The platform, taken as a parameter: the toolchain and `Arduino.h`, outside
the repository, fix the width of `int` (16 bits on AVR boards, 32 on ARM and
ESP boards) and the number of bytes `new` can still hand out. -/
structure Platform where
  intBits : Nat
  heap : Nat
  deriving DecidableEq, Repr

/-- Half the range of `int`: `INT_MAX + 1`. -/
def Platform.half (p : Platform) : Int := 2 ^ (p.intBits - 1)

/-- Whether `x` is a value of type `int`. -/
def Platform.isInt (p : Platform) (x : Int) : Prop := -p.half ≤ x ∧ x < p.half

/-- The result of an `int` operation whose exact value is `x`: two's-complement
wrap-around into the range of `int`. -/
def Platform.wrap (p : Platform) (x : Int) : Int := (x + p.half) % (2 * p.half) - p.half

/-- `new byte[n]` followed by `memset(status, 0, n)` for an `int` size `n`
(lines 43-44, 68-69): the zeroed buffer, or `none` when the allocation fails
and there is no buffer to speak of.  Converted to `size_t`, a negative `n` is
a size beyond any heap. -/
def Platform.allocZeroed (p : Platform) (n : Int) : Option (List Nat) :=
  if 0 ≤ n ∧ n ≤ (p.heap : Int) then some (List.replicate n.toNat 0) else none

/-- Whether the two products a constructor forms in `int` are values of type
`int`, so that neither wraps: the width `numDevices * 8` it hands to the base
class (lines 31, 57) and the buffer size `maxDevices * 8`, which is
`8 * max(1, numDevices)` (lines 43-44, 68-69). -/
def Platform.fits (p : Platform) (numDevices : Int) : Prop :=
  -p.half ≤ numDevices * 8 ∧ 8 * max 1 numDevices < p.half

instance (p : Platform) (x : Int) : Decidable (p.isInt x) := by
  unfold Platform.isInt
  infer_instance

instance (p : Platform) (n : Int) : Decidable (p.fits n) := by
  unfold Platform.fits
  infer_instance

/-- An AVR board such as the Arduino Uno: 16-bit `int`, 2 KiB of memory. -/
def avr : Platform := { intBits := 16, heap := 2048 }

/-- A 32-bit board with 256 KiB of memory. -/
def arm32 : Platform := { intBits := 32, heap := 262144 }

/-- Conversion of an `int` to `byte`. -/
def toByte (x : Int) : Nat := (x % 256).toNat

/-- Byte complement: `val = ~val` on a `byte`. -/
def bitNot8 (b : Nat) : Nat := 255 - b % 256

namespace LedControl

/-- Record an access to `status[i]`: outside the allocation the flag is set. -/
def touch (s : LedControl) (i : Int) : LedControl :=
  if 0 ≤ i ∧ i < (s.status.length : Int) then s else { s with oob := true }

/-- Value of `status[i]`. -/
def load (s : LedControl) (i : Int) : Nat := s.status.getD i.toNat 0

/-- Assignment `status[i] = v`. -/
def store (s : LedControl) (i : Int) (v : Nat) : LedControl :=
  if 0 ≤ i ∧ i < (s.status.length : Int) then
    { s with status := s.status.set i.toNat (v % 256) }
  else { s with oob := true }

/-- Append one action to the trace. -/
def emit (s : LedControl) (e : BusEvent) : LedControl :=
  { s with bus := s.bus ++ [e] }

/-- One byte on the wire: `spi_bus->transfer(b)` or
`shiftOut(SPI_MOSI, SPI_CLK, MSBFIRST, b)`. -/
def sendByte (s : LedControl) (b : Nat) : LedControl :=
  if s.hardwareSPI then s.emit (.transfer b)
  else s.emit (.shiftOut s.SPI_MOSI s.SPI_CLK b)

/-- The loop of `spiTransfer` (lines 234-254) with `k` iterations left, that is
with loop variable `i = k - 1`, counting down to `0`. -/
def spiLoop (addr : Int) (opcode data : Nat) : Nat → LedControl → LedControl
  | 0, s => s
  | k + 1, s =>
    let s1 :=
      if (k : Int) = addr then (s.sendByte opcode).sendByte data
      else (s.sendByte OP_NOOP).sendByte 0
    spiLoop addr opcode data k s1

/-- `LedControl::spiTransfer` (lines 219-261). -/
def spiTransfer (s : LedControl) (addr : Int) (opcode data : Nat) : LedControl :=
  if addr < 0 ∨ addr ≥ s.maxDevices then s
  else
    let s := if s.hardwareSPI then s.emit .beginTransaction else s
    let s := s.emit (.digitalWrite s.SPI_CS false)
    let s := spiLoop addr opcode data s.maxDevices.toNat s
    let s := s.emit (.digitalWrite s.SPI_CS true)
    if s.hardwareSPI then s.emit .endTransaction else s

/-- `LedControl::getDeviceCount` (lines 95-97). -/
def getDeviceCount (s : LedControl) : Int := s.maxDevices

/-- `LedControl::shutdown` (lines 99-102). -/
def shutdown (s : LedControl) (addr : Int) (b : Bool) : LedControl :=
  if addr < 0 ∨ addr ≥ s.maxDevices then s
  else spiTransfer s addr OP_SHUTDOWN (if b then 0 else 1)

/-- `LedControl::setScanLimit` (lines 104-108). -/
def setScanLimit (s : LedControl) (addr limit : Int) : LedControl :=
  if addr < 0 ∨ addr ≥ s.maxDevices then s
  else if limit ≥ 0 ∧ limit < 8 then spiTransfer s addr OP_SCANLIMIT (toByte limit)
  else s

/-- `LedControl::setIntensity` (lines 110-114). -/
def setIntensity (s : LedControl) (addr intensity : Int) : LedControl :=
  if addr < 0 ∨ addr ≥ s.maxDevices then s
  else if intensity ≥ 0 ∧ intensity < 16 then
    spiTransfer s addr OP_INTENSITY (toByte intensity)
  else s

/-- Body of the loop of `clearDisplay` (lines 120-121) for loop variable `i`. -/
def clearRow (addr offset : Int) (s : LedControl) (i : Nat) : LedControl :=
  let s := s.store (offset + i) 0
  let s := s.touch (offset + i)
  spiTransfer s addr (toByte ((i : Int) + 1)) (s.load (offset + i))

/-- `LedControl::clearDisplay` (lines 116-123). -/
def clearDisplay (s : LedControl) (addr : Int) : LedControl :=
  if addr < 0 ∨ addr ≥ s.maxDevices then s
  else
    let offset := addr * 8
    (List.range 8).foldl (clearRow addr offset) s

/-- `LedControl::clear` (lines 125-128). -/
def clear (s : LedControl) : LedControl :=
  (List.range s.maxDevices.toNat).foldl (fun s i => clearDisplay s (i : Int)) s

/-- `LedControl::setLed` (lines 130-147). -/
def setLed (s : LedControl) (addr row column : Int) (state : Bool) : LedControl :=
  if addr < 0 ∨ addr ≥ s.maxDevices then s
  else if row < 0 ∨ row > 7 ∨ column < 0 ∨ column > 7 then s
  else
    let offset := addr * 8
    let val := (0b10000000 >>> column.toNat) % 256
    let s :=
      if state then
        (s.touch (offset + row)).store (offset + row) (s.load (offset + row) ||| val)
      else
        let val := bitNot8 val
        (s.touch (offset + row)).store (offset + row) (s.load (offset + row) &&& val)
    let s := s.touch (offset + row)
    spiTransfer s addr (toByte (row + 1)) (s.load (offset + row))

/-- `LedControl::drawPixel` (lines 149-155); `x`, `y` are `int16_t`, `color`
is `uint16_t`. -/
def drawPixel (s : LedControl) (x y : Int) (color : Nat) : LedControl :=
  if x < 0 ∨ x ≥ 8 ∨ y < 0 ∨ y ≥ 8 then s
  else setLed s 0 y x (decide (color > 0))

/-- `LedControl::setRow` (lines 157-166). -/
def setRow (s : LedControl) (addr row : Int) (value : Nat) : LedControl :=
  let value := value % 256
  if addr < 0 ∨ addr ≥ s.maxDevices then s
  else if row < 0 ∨ row > 7 then s
  else
    let offset := addr * 8
    let s := s.store (offset + row) value
    let s := s.touch (offset + row)
    spiTransfer s addr (toByte (row + 1)) (s.load (offset + row))

/-- Body of the loop of `setColumn` (lines 176-178) for loop variable `row`. -/
def columnStep (addr col : Int) (value : Nat) (s : LedControl) (row : Nat) : LedControl :=
  let val := (value >>> (7 - row)) % 256
  let val := val &&& 0x01
  setLed s addr row col (val != 0)

/-- `LedControl::setColumn` (lines 168-180). -/
def setColumn (s : LedControl) (addr col : Int) (value : Nat) : LedControl :=
  let value := value % 256
  if addr < 0 ∨ addr ≥ s.maxDevices then s
  else if col < 0 ∨ col > 7 then s
  else (List.range 8).foldl (columnStep addr col value) s

/-- Record a read `pgm_read_byte_near(charTable + i)`. -/
def touchTable (s : LedControl) (i : Nat) : LedControl :=
  if i < charTable.length then s else { s with oob := true }

/-- `LedControl::setDigit` (lines 182-196). -/
def setDigit (s : LedControl) (addr digit : Int) (value : Nat) (dp : Bool) : LedControl :=
  let value := value % 256
  if addr < 0 ∨ addr ≥ s.maxDevices then s
  else if digit < 0 ∨ digit > 7 ∨ value > 15 then s
  else
    let offset := addr * 8
    let s := s.touchTable value
    let v := charTable.getD value 0
    let v := if dp then v ||| 0b10000000 else v
    let s := s.store (offset + digit) v
    spiTransfer s addr (toByte (digit + 1)) v

/-- `LedControl::setChar` (lines 198-217); `value` is the `char` code. -/
def setChar (s : LedControl) (addr digit : Int) (value : Int) (dp : Bool) : LedControl :=
  if addr < 0 ∨ addr ≥ s.maxDevices then s
  else if digit < 0 ∨ digit > 7 then s
  else
    let offset := addr * 8
    let index := toByte value
    let index := if index > 127 then 32 else index
    let s := s.touchTable index
    let v := charTable.getD index 0
    let v := if dp then v ||| 0b10000000 else v
    let s := s.store (offset + digit) v
    spiTransfer s addr (toByte (digit + 1)) v

/-- Body of the loop of `begin` (lines 89-91). -/
def beginStep (intensity : Int) (s : LedControl) (addr : Nat) : LedControl :=
  let s := shutdown s addr false
  let s := setIntensity s addr intensity
  clearDisplay s addr

/-- `LedControl::begin(int)` (lines 87-93). -/
def begin (s : LedControl) (intensity : Int) : LedControl :=
  (List.range s.getDeviceCount.toNat).foldl (beginStep intensity) s

/-- Body of the initialisation loop shared by both constructors
(lines 48-52 and 73-77). -/
def initStep (s : LedControl) (i : Nat) : LedControl :=
  let s := spiTransfer s i OP_DISPLAYTEST 0
  let s := setScanLimit s i 7
  let s := spiTransfer s i OP_DECODEMODE 0
  let s := clearDisplay s i
  shutdown s i true

/-- The software-SPI constructor from the point where `status` has been
allocated and zeroed: the field assignments and pin set-up (lines 32-41) and
the initialisation loop (lines 46-53). -/
def initSoftware (status : List Nat) (dataPin clkPin csPin maxDevices : Int) : LedControl :=
  let s : LedControl :=
    { SPI_MOSI := dataPin, SPI_CLK := clkPin, SPI_CS := csPin,
      maxDevices := maxDevices, hardwareSPI := false,
      status := status,
      bus := [.pinMode dataPin, .pinMode clkPin, .pinMode csPin,
              .digitalWrite csPin true],
      oob := false }
  (List.range s.maxDevices.toNat).foldl initStep s

/-- Software-SPI constructor `LedControl(dataPin, clkPin, csPin, numDevices)`
(lines 30-54) on platform `p`; `none` when `new byte[maxDevices * 8]` fails. -/
def newSoftware (p : Platform) (dataPin clkPin csPin numDevices : Int) : Option LedControl :=
  let maxDevices := if numDevices < 1 then 1 else numDevices
  (p.allocZeroed (p.wrap (maxDevices * 8))).map
    (fun status => initSoftware status dataPin clkPin csPin maxDevices)

/-- The hardware-SPI constructor from the point where `status` has been
allocated and zeroed: the field assignments, pin set-up and `spi_bus->begin()`
(lines 58-66) and the initialisation loop (lines 71-78).  The two unused pin
fields are left at `0`. -/
def initHardware (status : List Nat) (csPin maxDevices : Int) : LedControl :=
  let s : LedControl :=
    { SPI_MOSI := 0, SPI_CLK := 0, SPI_CS := csPin,
      maxDevices := maxDevices, hardwareSPI := true,
      status := status,
      bus := [.pinMode csPin, .digitalWrite csPin true, .spiBegin],
      oob := false }
  (List.range s.maxDevices.toNat).foldl initStep s

/-- Hardware-SPI constructor `LedControl(csPin, numDevices, spiClass)`
(lines 56-79) on platform `p`; `none` when `new byte[maxDevices * 8]` fails. -/
def newHardware (p : Platform) (csPin numDevices : Int) : Option LedControl :=
  let maxDevices := if numDevices < 1 then 1 else numDevices
  (p.allocZeroed (p.wrap (maxDevices * 8))).map
    (fun status => initHardware status csPin maxDevices)

end LedControl

/-! ## The public operations as data -/

/-- A call of a public member function together with its arguments. -/
inductive Op where
  | begin (intensity : Int)
  | shutdown (addr : Int) (b : Bool)
  | setScanLimit (addr limit : Int)
  | setIntensity (addr intensity : Int)
  | clearDisplay (addr : Int)
  | clear
  | setLed (addr row column : Int) (state : Bool)
  | drawPixel (x y : Int) (color : Nat)
  | setRow (addr row : Int) (value : Nat)
  | setColumn (addr col : Int) (value : Nat)
  | setDigit (addr digit : Int) (value : Nat) (dp : Bool)
  | setChar (addr digit : Int) (value : Int) (dp : Bool)
  deriving DecidableEq, Repr

/-- Run one call. -/
def Op.run (s : LedControl) : Op → LedControl
  | .begin i => s.begin i
  | .shutdown a b => s.shutdown a b
  | .setScanLimit a l => s.setScanLimit a l
  | .setIntensity a i => s.setIntensity a i
  | .clearDisplay a => s.clearDisplay a
  | .clear => s.clear
  | .setLed a r c b => s.setLed a r c b
  | .drawPixel x y c => s.drawPixel x y c
  | .setRow a r v => s.setRow a r v
  | .setColumn a c v => s.setColumn a c v
  | .setDigit a d v dp => s.setDigit a d v dp
  | .setChar a d v dp => s.setChar a d v dp

/-- Run a sequence of calls, first to last. -/
def runOps (s : LedControl) (ops : List Op) : LedControl := ops.foldl Op.run s

/-- The states a client can observe on platform `p` after constructing the
driver with the `int` argument `numDevices`: what either constructor returns,
followed by any calls. -/
inductive Reachable (p : Platform) (numDevices : Int) : LedControl → Prop where
  | software (dataPin clkPin csPin : Int) (s : LedControl) :
      p.isInt numDevices →
      LedControl.newSoftware p dataPin clkPin csPin numDevices = some s →
      Reachable p numDevices s
  | hardware (csPin : Int) (s : LedControl) :
      p.isInt numDevices →
      LedControl.newHardware p csPin numDevices = some s →
      Reachable p numDevices s
  | step (s : LedControl) (op : Op) :
      Reachable p numDevices s → Reachable p numDevices (op.run s)

/-! ## Vocabulary of the specification -/

/-- The bytes a trace puts on the wire, by either backend, in order. -/
def wireBytes : List BusEvent → List Nat
  | [] => []
  | .transfer b :: es => b :: wireBytes es
  | .shiftOut _ _ b :: es => b :: wireBytes es
  | _ :: es => wireBytes es

/-- Group a byte stream into two-byte `(opcode, data)` frames. -/
def frames : List Nat → List (Nat × Nat)
  | a :: b :: rest => (a, b) :: frames rest
  | _ => []

/-- The frames of one chain transaction for `N` devices, in emission order:
the `k`-th frame emitted belongs to device `N - 1 - k`; the target gets
`(op, data)` and every other device `(NOOP, 0)`. -/
def expectedFrames (N : Nat) (t : Int) (op data : Nat) : List (Nat × Nat) :=
  (List.range N).map fun k =>
    if ((N - 1 - k : Nat) : Int) = t then (op, data) else (OP_NOOP, 0)

/-- The trace entry of one byte on the wire for the backend of `s`. -/
def wireEvent (s : LedControl) (b : Nat) : BusEvent :=
  if s.hardwareSPI then .transfer b else .shiftOut s.SPI_MOSI s.SPI_CLK b

/-- The trace of one chain transaction: chip-select low, the frames, chip-select
high; in block-transfer mode bracketed by begin/endTransaction. -/
def transaction (s : LedControl) (t : Int) (op data : Nat) : List BusEvent :=
  (if s.hardwareSPI then [.beginTransaction] else []) ++
  [.digitalWrite s.SPI_CS false] ++
  (expectedFrames s.maxDevices.toNat t op data).flatMap
    (fun f => [wireEvent s f.1, wireEvent s f.2]) ++
  [.digitalWrite s.SPI_CS true] ++
  (if s.hardwareSPI then [.endTransaction] else [])

/-- The trace of `s` with `es` appended. -/
def LedControl.withEvents (s : LedControl) (es : List BusEvent) : LedControl :=
  { s with bus := s.bus ++ es }

/-- Frames in the order the loop of `spiTransfer` walks the chain. -/
def loopFrames (t : Int) (op data : Nat) : Nat → List (Nat × Nat)
  | 0 => []
  | k + 1 => (if (k : Int) = t then (op, data) else (OP_NOOP, 0)) :: loopFrames t op data k

/-- The events of a trace `after` that were appended to the trace `before`. -/
def newEvents (before after : LedControl) : List BusEvent :=
  after.bus.drop before.bus.length

/-- A four-device bit-banged chain with a blank display and an empty trace. -/
def chain4 : LedControl :=
  { SPI_MOSI := 11, SPI_CLK := 13, SPI_CS := 10, maxDevices := 4, hardwareSPI := false,
    status := List.replicate 32 0, bus := [], oob := false }

/-- Position of row `r` of device `d` in the shadow buffer. -/
def rowIndex (d r : Int) : Nat := (d * 8 + r).toNat

/-- The shadow byte of row `r` of device `d`. -/
def LedControl.rowByte (s : LedControl) (d r : Int) : Nat :=
  s.status.getD (rowIndex d r) 0

/-- The class invariant set up by the constructors: at least one device, a
shadow buffer of eight bytes per device, every entry a byte. -/
def LedControl.WF (s : LedControl) : Prop :=
  1 ≤ s.maxDevices ∧ (s.status.length : Int) = s.maxDevices * 8 ∧ ∀ b ∈ s.status, b < 256

instance (s : LedControl) : Decidable s.WF := by
  unfold LedControl.WF
  infer_instance

/-- A one-device chain as the bit-banged constructor leaves it, with row 0 of
device 0 fully lit by `setRow(0, 0, 0xFF)`. -/
def litRow : LedControl :=
  (LedControl.initSoftware (List.replicate 8 0) 11 13 10 1).setRow 0 0 255

/-- The state `s` with shadow buffer `st` and the events `es` appended. -/
def LedControl.update (s : LedControl) (st : List Nat) (es : List BusEvent) : LedControl :=
  { s with status := st, bus := s.bus ++ es }

/-- One row write as the spec describes it: the shadow byte of `(d, r)` becomes
`x`, no other byte changes, and the single transaction `(d, r + 1, x)` is
appended to the trace. -/
def LedControl.rowWrite (s : LedControl) (d r : Int) (x : Nat) : LedControl :=
  s.update (s.status.set (rowIndex d r) x) (transaction s d (r + 1).toNat x)

/-- The row byte after switching the LED of column `c` on or off: bit `7 - c`
is set, or cleared, in `old`. -/
def ledByte (old c : Nat) (lit : Bool) : Nat :=
  if lit then old ||| (1 <<< (7 - c)) else old &&& (255 ^^^ (1 <<< (7 - c)))

/-- A glyph pattern with the decimal point (bit 7) added when `dp` holds. -/
def glyphByte (g : Nat) (dp : Bool) : Nat := if dp then g ||| 0x80 else g

/-- The rows a call selects through its arguments: whether the call, by its
address arguments, can write row `r` of device `d`.  `begin` and `clear` select
every row, `clearDisplay` and `setColumn` every row of their device,
`drawPixel` a row of device 0, and the three control setters none. -/
def Op.addresses : Op → Int → Int → Prop
  | .begin _, _, _ => True
  | .clear, _, _ => True
  | .clearDisplay a, d, _ => a = d
  | .setColumn a _ _, d, _ => a = d
  | .setLed a r1 _ _, d, r => a = d ∧ r1 = r
  | .drawPixel _ y _, d, r => d = 0 ∧ y = r
  | .setRow a r1 _, d, r => a = d ∧ r1 = r
  | .setDigit a p _ _, d, r => a = d ∧ p = r
  | .setChar a p _ _, d, r => a = d ∧ p = r
  | .shutdown _ _, _, _ => False
  | .setScanLimit _ _, _, _ => False
  | .setIntensity _ _, _, _ => False

/-! ## The devices on the chain, as the specification models them

Each device keeps, per opcode, the data of the last frame with that opcode it
received; a frame with opcode NOOP writes nothing.  Bytes are shifted into the
chain while chip-select is low; when chip-select goes high every device latches
the frame that has reached it: device `j` the `j`-th frame counted from the last
one shifted in. -/

/-- The chain between two actions of the driver: the bytes shifted in since
chip-select went low (`none` while chip-select is high) and the registers of
every device, by device index and opcode (`none`: never written). -/
structure Chain where
  pending : Option (List Nat)
  regs : Nat → Nat → Option Nat

/-- The registers after chip-select goes high with `bytes` shifted in. -/
def Chain.latch (regs : Nat → Nat → Option Nat) (bytes : List Nat) :
    Nat → Nat → Option Nat :=
  fun d op =>
    match (frames bytes).reverse[d]? with
    | some (o, v) => if o ≠ OP_NOOP ∧ o = op then some v else regs d op
    | none => regs d op

/-- The effect of one action of the driver on the chain selected by pin `cs`. -/
def Chain.step (cs : Int) (c : Chain) : BusEvent → Chain
  | .digitalWrite pin level =>
    if pin = cs then
      if level then
        match c.pending with
        | some bs => { pending := none, regs := Chain.latch c.regs bs }
        | none => c
      else { c with pending := some [] }
    else c
  | .transfer b =>
    match c.pending with
    | some bs => { c with pending := some (bs ++ [b]) }
    | none => c
  | .shiftOut _ _ b =>
    match c.pending with
    | some bs => { c with pending := some (bs ++ [b]) }
    | none => c
  | _ => c

/-- The ASCII code of the hexadecimal digit of `v`: `'0'..'9'` for 0..9 and
`'A'..'F'`, or `'a'..'f'` when `lower` holds, for 10..15. -/
def hexChar (v : Nat) (lower : Bool) : Int :=
  if v < 10 then 48 + v else if lower then 87 + v else 55 + v

/-- The trace of a list of transactions, each given as (device, opcode, data). -/
def txEvents (s : LedControl) (l : List (Int × Nat × Nat)) : List BusEvent :=
  l.flatMap (fun t => transaction s t.1 t.2.1 t.2.2)

/-- The eight row clears of device `d`: opcodes 1 to 8 in order, data 0. -/
def rowClears (d : Int) : List (Int × Nat × Nat) :=
  (List.range 8).map (fun r => (d, r + 1, 0))

/-- What one pass over device `i` does: from `s1` to `s2` the transactions `txs`
are appended, the eight rows of device `i` become 0 and no other shadow byte
changes. -/
def DeviceStep (s1 s2 : LedControl) (i : Nat) (txs : List (Int × Nat × Nat)) : Prop :=
  ∃ st : List Nat,
    s2 = s1.update st (txEvents s1 txs) ∧ st.length = s1.status.length ∧
    (∀ b ∈ st, b < 256) ∧
    (∀ r : Nat, r < 8 → st.getD (rowIndex i r) 0 = 0) ∧
    (∀ j : Nat, (∀ r : Nat, r < 8 → j ≠ rowIndex i r) → st.getD j 0 = s1.status.getD j 0)

/-- The transactions that bring device `i` to the SAFE state, in the order of
the constructors' loop: test mode off, scan limit 7, decode off, the eight row
clears, shutdown. -/
def initSequence (i : Int) : List (Int × Nat × Nat) :=
  [(i, 15, 0), (i, 11, 7), (i, 9, 0)] ++ rowClears i ++ [(i, 12, 0)]

/-- The transactions that bring device `i` to the ACTIVE state, in the order of
the loop of `begin`: shutdown off, intensity, the eight row clears. -/
def beginSequence (intensity : Nat) (i : Int) : List (Int × Nat × Nat) :=
  [(i, 12, 1), (i, 10, intensity)] ++ rowClears i

/-- The transactions of a pass `T` over devices `0 .. N-1`, in order. -/
def forEachDevice (N : Int) (T : Int → List (Int × Nat × Nat)) : List (Int × Nat × Nat) :=
  (List.range N.toNat).flatMap (fun i => T (i : Int))

/-- A two-device bit-banged chain with every LED lit and an empty trace. -/
def chain2 : LedControl :=
  { SPI_MOSI := 11, SPI_CLK := 13, SPI_CS := 10, maxDevices := 2, hardwareSPI := false,
    status := List.replicate 16 0xFF, bus := [], oob := false }

/-- A state in which no access so far has left the shadow buffer or the glyph
table: the class invariant holds and the out-of-bounds flag is clear. -/
def Safe (s : LedControl) : Prop := s.WF ∧ s.oob = false

/-! ## What both backends have in common -/

/-- What is visible on the wires: a level written to a pin, or a byte clocked
out. -/
inductive Wire where
  | select (pin : Int) (level : Bool)
  | byte (b : Nat)
  deriving DecidableEq, Repr

/-- The wire activity of a trace: pin writes and bytes in order, whichever
primitive sent the byte; pin set-up, `SPI.begin` and the
begin/endTransaction brackets are not wire activity. -/
def wireView : List BusEvent → List Wire
  | [] => []
  | .digitalWrite pin level :: es => .select pin level :: wireView es
  | .transfer b :: es => .byte b :: wireView es
  | .shiftOut _ _ b :: es => .byte b :: wireView es
  | _ :: es => wireView es

/-- A trace with the backend erased: every byte as a `shiftOut` on pins 0, 0,
pin writes kept, everything else dropped. -/
def canon : List BusEvent → List BusEvent
  | [] => []
  | .digitalWrite pin level :: es => .digitalWrite pin level :: canon es
  | .transfer b :: es => .shiftOut 0 0 b :: canon es
  | .shiftOut _ _ b :: es => .shiftOut 0 0 b :: canon es
  | _ :: es => canon es

/-- A state with the backend erased. -/
def norm (s : LedControl) : LedControl :=
  { s with SPI_MOSI := 0, SPI_CLK := 0, hardwareSPI := false, bus := canon s.bus }

/-- The configuration fixed at construction: pins, device count and backend. -/
def config (s : LedControl) : Int × Int × Int × Int × Bool :=
  (s.SPI_MOSI, s.SPI_CLK, s.SPI_CS, s.maxDevices, s.hardwareSPI)

/-! ## The trace as a log of transactions -/

/-- The state `s1` continues `s`: the configuration and the length of the buffer
are those of `s`, the out-of-bounds flag is still set if it was set in `s`, and
the trace of `s1` is the trace of `s` followed by whole transactions only. -/
def Logged (s s1 : LedControl) : Prop :=
  config s1 = config s ∧ s1.status.length = s.status.length ∧
  (s.oob = true → s1.oob = true) ∧
  ∃ L : List (Int × Nat × Nat), s1.bus = s.bus ++ txEvents s L

/-- A trace with every bit-banged byte moved to the pins `mosi` and `clk`. -/
def repin (mosi clk : Int) : List BusEvent → List BusEvent
  | [] => []
  | .shiftOut _ _ b :: es => .shiftOut mosi clk b :: repin mosi clk es
  | e :: es => e :: repin mosi clk es

/-! # Proofs -/

/-! ## The chain transaction -/

section Transport

theorem wireBytes_append (xs ys : List BusEvent) :
    wireBytes (xs ++ ys) = wireBytes xs ++ wireBytes ys := by
  induction xs with
  | nil => rfl
  | cons e es ih => cases e <;> simp [wireBytes, ih]

theorem loopFrames_eq (t : Int) (op data : Nat) (N : Nat) :
    loopFrames t op data N = expectedFrames N t op data := by
  induction N with
  | zero => rfl
  | succ n ih =>
    rw [loopFrames, ih, expectedFrames, expectedFrames, List.range_succ_eq_map]
    simp only [List.map_cons, List.map_map]
    congr 1
    apply List.map_congr_left
    intro k _
    have e : n - 1 - k = n - (k + 1) := by omega
    simp [e]

theorem spiLoop_eq (t : Int) (op data : Nat) (k : Nat) (s : LedControl) :
    LedControl.spiLoop t op data k s =
      s.withEvents ((loopFrames t op data k).flatMap
        (fun f => [wireEvent s f.1, wireEvent s f.2])) := by
  induction k generalizing s with
  | zero => simp [LedControl.spiLoop, loopFrames, LedControl.withEvents]
  | succ k ih =>
    rw [LedControl.spiLoop, ih]
    by_cases h : (k : Int) = t <;>
      simp [h, loopFrames, LedControl.withEvents, LedControl.sendByte, LedControl.emit,
        wireEvent] <;>
      cases s.hardwareSPI <;> simp

theorem spiTransfer_eq (s : LedControl) (t : Int) (op data : Nat)
    (h : 0 ≤ t ∧ t < s.maxDevices) :
    s.spiTransfer t op data = s.withEvents (transaction s t op data) := by
  have h1 : ¬ (t < 0 ∨ t ≥ s.maxDevices) := by omega
  rw [LedControl.spiTransfer, if_neg h1]
  simp only [spiLoop_eq, loopFrames_eq]
  cases hh : s.hardwareSPI <;>
    simp [hh, transaction, LedControl.withEvents, LedControl.emit, wireEvent]

theorem spiTransfer_out (s : LedControl) (t : Int) (op data : Nat)
    (h : ¬ (0 ≤ t ∧ t < s.maxDevices)) : s.spiTransfer t op data = s := by
  have h1 : t < 0 ∨ t ≥ s.maxDevices := by omega
  rw [LedControl.spiTransfer, if_pos h1]

theorem newEvents_withEvents (s : LedControl) (es : List BusEvent) :
    newEvents s (s.withEvents es) = es := by
  simp [newEvents, LedControl.withEvents]

theorem frames_wireBytes_flatMap (s : LedControl) (fs : List (Nat × Nat)) :
    frames (wireBytes (fs.flatMap (fun f => [wireEvent s f.1, wireEvent s f.2]))) = fs := by
  induction fs with
  | nil => rfl
  | cons f fs ih =>
    cases hh : s.hardwareSPI <;>
      simp [wireEvent, hh, wireBytes, frames] at ih ⊢ <;> exact ih

theorem wireBytes_transaction (s : LedControl) (t : Int) (op data : Nat) :
    wireBytes (transaction s t op data) =
      wireBytes ((expectedFrames s.maxDevices.toNat t op data).flatMap
        (fun f => [wireEvent s f.1, wireEvent s f.2])) := by
  cases hh : s.hardwareSPI <;> simp [transaction, hh, wireBytes_append, wireBytes]

theorem expectedFrames_device (N : Nat) (t : Int) (op data : Nat) (i : Nat) (h : i < N) :
    (expectedFrames N t op data)[N - 1 - i]? =
      some (if (i : Int) = t then (op, data) else (OP_NOOP, 0)) := by
  have h1 : N - 1 - i < N := by omega
  have h2 : N - 1 - (N - 1 - i) = i := by omega
  simp [expectedFrames, List.getElem?_map, List.getElem?_range, h1, h2]

end Transport

/-! ## Row writes -/

section Rows

theorem update_update (s : LedControl) (st st2 : List Nat) (es es2 : List BusEvent) :
    (s.update st es).update st2 es2 = s.update st2 (es ++ es2) := by
  simp [LedControl.update]

theorem withEvents_eq_update (s : LedControl) (es : List BusEvent) :
    s.withEvents es = s.update s.status es := rfl

theorem update_self (s : LedControl) : s.update s.status [] = s := by
  simp [LedControl.update]

theorem transaction_update (s : LedControl) (st : List Nat) (es : List BusEvent)
    (t : Int) (op x : Nat) :
    transaction (s.update st es) t op x = transaction s t op x := rfl

theorem spiTransfer_update (s : LedControl) (st : List Nat) (es : List BusEvent)
    (t : Int) (op x : Nat) (h : 0 ≤ t ∧ t < s.maxDevices) :
    (s.update st es).spiTransfer t op x = s.update st (es ++ transaction s t op x) := by
  rw [spiTransfer_eq (s.update st es) t op x h, transaction_update]
  simp [LedControl.update, LedControl.withEvents]

theorem toByte_succ (r : Int) (h : 0 ≤ r ∧ r ≤ 7) : toByte (r + 1) = (r + 1).toNat := by
  unfold toByte
  have : (r + 1) % 256 = r + 1 := Int.emod_eq_of_lt (by omega) (by omega)
  rw [this]

theorem rowIndex_lt (s : LedControl) (hs : s.WF) (d r : Int)
    (hd : 0 ≤ d ∧ d < s.maxDevices) (hr : 0 ≤ r ∧ r ≤ 7) :
    rowIndex d r < s.status.length := by
  obtain ⟨_, h2, _⟩ := hs
  unfold rowIndex
  omega

theorem store_eq (s : LedControl) (hs : s.WF) (d r : Int)
    (hd : 0 ≤ d ∧ d < s.maxDevices) (hr : 0 ≤ r ∧ r ≤ 7) (x : Nat) :
    s.store (d * 8 + r) x = s.update (s.status.set (rowIndex d r) (x % 256)) [] := by
  have h : 0 ≤ d * 8 + r ∧ d * 8 + r < (s.status.length : Int) := by
    obtain ⟨_, h2, _⟩ := hs
    omega
  simp [LedControl.store, h, LedControl.update, rowIndex]

theorem touch_update_set (s : LedControl) (hs : s.WF) (d r : Int)
    (hd : 0 ≤ d ∧ d < s.maxDevices) (hr : 0 ≤ r ∧ r ≤ 7) (i x : Nat)
    (es : List BusEvent) :
    (s.update (s.status.set i x) es).touch (d * 8 + r) = s.update (s.status.set i x) es := by
  have h : 0 ≤ d * 8 + r ∧ d * 8 + r < (s.status.length : Int) := by
    obtain ⟨_, h2, _⟩ := hs
    omega
  simp [LedControl.touch, LedControl.update, h]

theorem touch_eq (s : LedControl) (hs : s.WF) (d r : Int)
    (hd : 0 ≤ d ∧ d < s.maxDevices) (hr : 0 ≤ r ∧ r ≤ 7) :
    s.touch (d * 8 + r) = s := by
  have h : 0 ≤ d * 8 + r ∧ d * 8 + r < (s.status.length : Int) := by
    obtain ⟨_, h2, _⟩ := hs
    omega
  simp [LedControl.touch, h]

theorem load_eq (s : LedControl) (d r : Int) : s.load (d * 8 + r) = s.rowByte d r := rfl

theorem load_update_set (s : LedControl) (hs : s.WF) (d r : Int)
    (hd : 0 ≤ d ∧ d < s.maxDevices) (hr : 0 ≤ r ∧ r ≤ 7) (x : Nat) (es : List BusEvent) :
    (s.update (s.status.set (rowIndex d r) x) es).load (d * 8 + r) = x := by
  have h := rowIndex_lt s hs d r hd hr
  simp [LedControl.load, LedControl.update, rowIndex] at h ⊢
  simp [h]

/-- The common tail of every row-writing member: store, read back, transfer. -/
theorem store_transfer (s : LedControl) (hs : s.WF) (d r : Int)
    (hd : 0 ≤ d ∧ d < s.maxDevices) (hr : 0 ≤ r ∧ r ≤ 7) (x : Nat) :
    ((s.store (d * 8 + r) x).touch (d * 8 + r)).spiTransfer d (toByte (r + 1))
        (((s.store (d * 8 + r) x).touch (d * 8 + r)).load (d * 8 + r)) =
      s.rowWrite d r (x % 256) := by
  rw [store_eq s hs d r hd hr, touch_update_set s hs d r hd hr,
    load_update_set s hs d r hd hr, toByte_succ r hr, spiTransfer_update _ _ _ _ _ _ hd]
  rfl

theorem setRow_eq (s : LedControl) (hs : s.WF) (d r : Int)
    (hd : 0 ≤ d ∧ d < s.maxDevices) (hr : 0 ≤ r ∧ r ≤ 7) (v : Nat) :
    s.setRow d r v = s.rowWrite d r (v % 256) := by
  have h1 : ¬ (d < 0 ∨ d ≥ s.maxDevices) := by omega
  have h2 : ¬ (r < 0 ∨ r > 7) := by omega
  simp only [LedControl.setRow, if_neg h1, if_neg h2]
  rw [store_transfer s hs d r hd hr, Nat.mod_mod]

theorem store_transfer_direct (s : LedControl) (hs : s.WF) (d r : Int)
    (hd : 0 ≤ d ∧ d < s.maxDevices) (hr : 0 ≤ r ∧ r ≤ 7) (x : Nat) (hx : x < 256) :
    (s.store (d * 8 + r) x).spiTransfer d (toByte (r + 1)) x = s.rowWrite d r x := by
  rw [store_eq s hs d r hd hr, toByte_succ r hr, spiTransfer_update _ _ _ _ _ _ hd,
    Nat.mod_eq_of_lt hx]
  rfl

theorem rowByte_lt (s : LedControl) (hs : s.WF) (d r : Int)
    (hd : 0 ≤ d ∧ d < s.maxDevices) (hr : 0 ≤ r ∧ r ≤ 7) : s.rowByte d r < 256 := by
  have h := rowIndex_lt s hs d r hd hr
  unfold LedControl.rowByte
  rw [List.getD_eq_getElem _ _ h]
  exact hs.2.2 _ (List.getElem_mem _)

theorem mask_eq (c : Nat) (hc : c ≤ 7) : (0b10000000 >>> c) % 256 = 1 <<< (7 - c) := by
  interval_cases c <;> decide

theorem bitNot8_mask (c : Nat) (hc : c ≤ 7) :
    bitNot8 (1 <<< (7 - c)) = 255 ^^^ (1 <<< (7 - c)) := by
  interval_cases c <;> decide

theorem ledByte_lt (old c : Nat) (lit : Bool) (hold : old < 256) (hc : c ≤ 7) :
    ledByte old c lit < 256 := by
  unfold ledByte
  split
  · exact Nat.or_lt_two_pow (n := 8) hold (by interval_cases c <;> decide)
  · exact Nat.and_lt_two_pow (n := 8) old (by interval_cases c <;> decide)

theorem ledByte_testBit (old c : Nat) (lit : Bool) (hold : old < 256) (hc : c ≤ 7)
    (j : Nat) :
    (ledByte old c lit).testBit j = if j = 7 - c then lit else old.testBit j := by
  have h255 : (255 : Nat) = 2 ^ 8 - 1 := by norm_num
  have hhigh : 8 ≤ j → old.testBit j = false := fun hj =>
    Nat.testBit_lt_two_pow (lt_of_lt_of_le hold
      (by calc (256 : Nat) = 2 ^ 8 := by norm_num
            _ ≤ 2 ^ j := Nat.pow_le_pow_right (by norm_num) hj))
  unfold ledByte
  cases lit
  · simp only [Bool.false_eq_true, if_false, Nat.testBit_and, Nat.testBit_xor,
      Nat.one_shiftLeft, Nat.testBit_two_pow, h255, Nat.testBit_two_pow_sub_one]
    by_cases hj : j = 7 - c
    · subst hj
      have : 7 - c < 8 := by omega
      simp [this]
    · have hj2 : ¬ (7 - c = j) := fun h => hj h.symm
      by_cases h8 : j < 8
      · simp [hj, hj2, h8]
      · simp [hj, hj2, h8, hhigh (by omega)]
  · simp only [if_true, Nat.testBit_or, Nat.one_shiftLeft, Nat.testBit_two_pow]
    by_cases hj : j = 7 - c
    · subst hj
      simp
    · have hj2 : ¬ (7 - c = j) := fun h => hj h.symm
      simp [hj, hj2]

theorem setLed_eq (s : LedControl) (hs : s.WF) (d r c : Int)
    (hd : 0 ≤ d ∧ d < s.maxDevices) (hr : 0 ≤ r ∧ r ≤ 7) (hc : 0 ≤ c ∧ c ≤ 7)
    (lit : Bool) :
    s.setLed d r c lit = s.rowWrite d r (ledByte (s.rowByte d r) c.toNat lit) := by
  have h1 : ¬ (d < 0 ∨ d ≥ s.maxDevices) := by omega
  have h2 : ¬ (r < 0 ∨ r > 7 ∨ c < 0 ∨ c > 7) := by omega
  have hc7 : c.toNat ≤ 7 := by omega
  have hold := rowByte_lt s hs d r hd hr
  simp only [LedControl.setLed, if_neg h1, if_neg h2]
  rw [touch_eq s hs d r hd hr, load_eq, mask_eq _ hc7, bitNot8_mask _ hc7]
  cases lit
  · simp only [Bool.false_eq_true, if_false]
    rw [store_transfer s hs d r hd hr]
    congr 1
    exact Nat.mod_eq_of_lt (ledByte_lt _ _ false hold hc7)
  · simp only [if_true]
    rw [store_transfer s hs d r hd hr]
    congr 1
    exact Nat.mod_eq_of_lt (ledByte_lt _ _ true hold hc7)

set_option maxRecDepth 20000 in
theorem charTable_byte : ∀ b ∈ charTable, b < 256 := by decide

set_option maxRecDepth 20000 in
theorem charTable_length : charTable.length = 128 := by decide

theorem glyphByte_lt (i : Nat) (dp : Bool) : glyphByte (charTable.getD i 0) dp < 256 := by
  have hg : charTable.getD i 0 < 256 := by
    by_cases h : i < charTable.length
    · rw [List.getD_eq_getElem _ _ h]
      exact charTable_byte _ (List.getElem_mem _)
    · rw [List.getD_eq_default _ _ (by omega)]
      norm_num
  unfold glyphByte
  split
  · exact Nat.or_lt_two_pow (n := 8) hg (by norm_num)
  · exact hg

theorem touchTable_eq (s : LedControl) (i : Nat) (h : i < 128) : s.touchTable i = s := by
  have : i < charTable.length := by
    rw [charTable_length]
    exact h
  simp [LedControl.touchTable, this]

theorem setDigit_eq (s : LedControl) (hs : s.WF) (d p : Int)
    (hd : 0 ≤ d ∧ d < s.maxDevices) (hp : 0 ≤ p ∧ p ≤ 7) (v : Nat) (hv : v % 256 ≤ 15)
    (dp : Bool) :
    s.setDigit d p v dp = s.rowWrite d p (glyphByte (charTable.getD (v % 256) 0) dp) := by
  have h1 : ¬ (d < 0 ∨ d ≥ s.maxDevices) := by omega
  have h2 : ¬ (p < 0 ∨ p > 7 ∨ v % 256 > 15) := by omega
  simp only [LedControl.setDigit, if_neg h1, if_neg h2]
  rw [touchTable_eq s _ (by omega)]
  exact store_transfer_direct s hs d p hd hp _ (glyphByte_lt _ dp)

theorem setChar_eq (s : LedControl) (hs : s.WF) (d p : Int)
    (hd : 0 ≤ d ∧ d < s.maxDevices) (hp : 0 ≤ p ∧ p ≤ 7) (code : Int) (dp : Bool) :
    s.setChar d p code dp =
      s.rowWrite d p
        (glyphByte (charTable.getD (if toByte code > 127 then 32 else toByte code) 0) dp) := by
  have h1 : ¬ (d < 0 ∨ d ≥ s.maxDevices) := by omega
  have h2 : ¬ (p < 0 ∨ p > 7) := by omega
  simp only [LedControl.setChar, if_neg h1, if_neg h2]
  rw [touchTable_eq s _ (by split <;> omega)]
  exact store_transfer_direct s hs d p hd hp _ (glyphByte_lt _ dp)

theorem rowWrite_WF (s : LedControl) (hs : s.WF) (d r : Int) (x : Nat) (hx : x < 256) :
    (s.rowWrite d r x).WF := by
  obtain ⟨h1, h2, h3⟩ := hs
  refine ⟨h1, ?_, ?_⟩
  · simpa [LedControl.rowWrite, LedControl.update] using h2
  · intro b hb
    rcases List.mem_or_eq_of_mem_set hb with h | h
    · exact h3 b h
    · exact h ▸ hx

theorem rowWrite_maxDevices (s : LedControl) (d r : Int) (x : Nat) :
    (s.rowWrite d r x).maxDevices = s.maxDevices := rfl

theorem rowWrite_rowByte (s : LedControl) (hs : s.WF) (d r : Int)
    (hd : 0 ≤ d ∧ d < s.maxDevices) (hr : 0 ≤ r ∧ r ≤ 7) (x : Nat) :
    (s.rowWrite d r x).rowByte d r = x := by
  have h := rowIndex_lt s hs d r hd hr
  simp [LedControl.rowWrite, LedControl.update, LedControl.rowByte, h]

theorem rowWrite_other (s : LedControl) (d r : Int) (x : Nat) (i : Nat)
    (hi : i ≠ rowIndex d r) :
    (s.rowWrite d r x).status.getD i 0 = s.status.getD i 0 := by
  simp [LedControl.rowWrite, LedControl.update, List.getElem?_set_ne (Ne.symm hi)]

theorem rowWrite_length (s : LedControl) (d r : Int) (x : Nat) :
    (s.rowWrite d r x).status.length = s.status.length := by
  simp [LedControl.rowWrite, LedControl.update]

theorem rowWrite_events (s : LedControl) (d r : Int) (x : Nat) :
    newEvents s (s.rowWrite d r x) = transaction s d (r + 1).toNat x := by
  simp [LedControl.rowWrite, LedControl.update, newEvents]

theorem rowWrite_spiTransfer (s : LedControl) (d r : Int) (x : Nat)
    (hd : 0 ≤ d ∧ d < s.maxDevices) :
    s.rowWrite d r x =
      ({ s with status := s.status.set (rowIndex d r) x }).spiTransfer d (r + 1).toNat x := by
  have h := spiTransfer_update s (s.status.set (rowIndex d r) x) [] d (r + 1).toNat x hd
  simp only [LedControl.update, List.append_nil, List.nil_append] at h
  rw [h]
  rfl

theorem ledByte_on_off (old c : Nat) (hold : old < 256) (hc : c ≤ 7) :
    ledByte (ledByte old c true) c false = ledByte old c false := by
  apply Nat.eq_of_testBit_eq
  intro j
  rw [ledByte_testBit _ c false (ledByte_lt old c true hold hc) hc,
    ledByte_testBit _ c false hold hc, ledByte_testBit _ c true hold hc]
  split <;> rfl

theorem ledByte_off_eq_iff (old c : Nat) (hold : old < 256) (hc : c ≤ 7) :
    ledByte old c false = old ↔ old.testBit (7 - c) = false := by
  constructor
  · intro h
    have h2 := ledByte_testBit old c false hold hc (7 - c)
    rw [h] at h2
    simpa using h2
  · intro h
    apply Nat.eq_of_testBit_eq
    intro j
    rw [ledByte_testBit old c false hold hc]
    split
    · next hj => rw [hj, h]
    · rfl

theorem glyphByte_testBit (g : Nat) (hg : g < 128) (dp : Bool) (j : Nat) :
    (glyphByte g dp).testBit j = if j = 7 then dp else g.testBit j := by
  have h7 : g.testBit 7 = false := Nat.testBit_lt_two_pow (by simpa using hg)
  have h128 : (0x80 : Nat) = 2 ^ 7 := by norm_num
  unfold glyphByte
  cases dp
  · by_cases hj : j = 7
    · subst hj
      simp [h7]
    · simp [hj]
  · simp only [if_true, Nat.testBit_or, h128, Nat.testBit_two_pow]
    by_cases hj : j = 7
    · subst hj
      simp
    · have hj2 : ¬ (7 = j) := fun h => hj h.symm
      simp [hj, hj2]

theorem charTable_digit_lt (v : Nat) (hv : v ≤ 15) : charTable.getD v 0 < 128 := by
  interval_cases v <;> decide

end Rows

/-! ## What a call leaves alone -/

section Frame

theorem spiTransfer_status (s : LedControl) (t : Int) (op x : Nat) :
    (s.spiTransfer t op x).status = s.status := by
  by_cases h : 0 ≤ t ∧ t < s.maxDevices
  · rw [spiTransfer_eq s t op x h]
    rfl
  · rw [spiTransfer_out s t op x h]

theorem touch_status (s : LedControl) (i : Int) : (s.touch i).status = s.status := by
  unfold LedControl.touch
  split <;> rfl

theorem touchTable_status (s : LedControl) (i : Nat) : (s.touchTable i).status = s.status := by
  unfold LedControl.touchTable
  split <;> rfl

theorem store_getD_ne (s : LedControl) (i : Int) (x j : Nat) (h : i < 0 ∨ i.toNat ≠ j) :
    (s.store i x).status.getD j 0 = s.status.getD j 0 := by
  unfold LedControl.store
  split
  · next hi =>
    have hne : i.toNat ≠ j := by omega
    simp [List.getElem?_set_ne hne]
  · rfl

theorem foldl_keeps {α : Type} (P : LedControl → Prop) (f : LedControl → α → LedControl)
    (l : List α) (s : LedControl) (h0 : P s) (hstep : ∀ s a, a ∈ l → P s → P (f s a)) :
    P (l.foldl f s) := by
  induction l generalizing s with
  | nil => exact h0
  | cons a l ih =>
    exact ih (f s a) (hstep s a (List.mem_cons_self _ _) h0)
      (fun s b hb hp => hstep s b (List.mem_cons_of_mem _ hb) hp)

theorem setRow_keeps (s : LedControl) (a r1 : Int) (v : Nat) (d r : Int)
    (hd : 0 ≤ d) (hr : 0 ≤ r ∧ r ≤ 7) (hne : ¬ (a = d ∧ r1 = r)) :
    (s.setRow a r1 v).rowByte d r = s.rowByte d r := by
  simp only [LedControl.setRow]
  split_ifs with h1 h2
  · rfl
  · rfl
  · simp only [LedControl.rowByte, spiTransfer_status, touch_status]
    exact store_getD_ne s _ _ _ (Or.inr (by unfold rowIndex; omega))

theorem setLed_keeps (s : LedControl) (a r1 c : Int) (lit : Bool) (d r : Int)
    (hd : 0 ≤ d) (hr : 0 ≤ r ∧ r ≤ 7) (hne : ¬ (a = d ∧ r1 = r)) :
    (s.setLed a r1 c lit).rowByte d r = s.rowByte d r := by
  simp only [LedControl.setLed]
  split_ifs with h1 h2 h3
  · rfl
  · rfl
  · simp only [LedControl.rowByte, spiTransfer_status, touch_status]
    rw [store_getD_ne _ _ _ _ (Or.inr (by unfold rowIndex; omega)), touch_status]
  · simp only [LedControl.rowByte, spiTransfer_status, touch_status]
    rw [store_getD_ne _ _ _ _ (Or.inr (by unfold rowIndex; omega)), touch_status]

theorem setDigit_keeps (s : LedControl) (a p : Int) (v : Nat) (dp : Bool) (d r : Int)
    (hd : 0 ≤ d) (hr : 0 ≤ r ∧ r ≤ 7) (hne : ¬ (a = d ∧ p = r)) :
    (s.setDigit a p v dp).rowByte d r = s.rowByte d r := by
  simp only [LedControl.setDigit]
  split_ifs <;> first
    | rfl
    | (simp only [LedControl.rowByte, spiTransfer_status]
       rw [store_getD_ne _ _ _ _ (Or.inr (by unfold rowIndex; omega)), touchTable_status])

theorem setChar_keeps (s : LedControl) (a p code : Int) (dp : Bool) (d r : Int)
    (hd : 0 ≤ d) (hr : 0 ≤ r ∧ r ≤ 7) (hne : ¬ (a = d ∧ p = r)) :
    (s.setChar a p code dp).rowByte d r = s.rowByte d r := by
  simp only [LedControl.setChar]
  split_ifs <;> first
    | rfl
    | (simp only [LedControl.rowByte, spiTransfer_status]
       rw [store_getD_ne _ _ _ _ (Or.inr (by unfold rowIndex; omega)), touchTable_status])

theorem clearDisplay_keeps (s : LedControl) (a : Int) (d r : Int)
    (hd : 0 ≤ d) (hr : 0 ≤ r ∧ r ≤ 7) (hne : a ≠ d) :
    (s.clearDisplay a).rowByte d r = s.rowByte d r := by
  simp only [LedControl.clearDisplay]
  split_ifs with h1
  · rfl
  · apply foldl_keeps (fun s1 => s1.rowByte d r = s.rowByte d r) _ _ _ rfl
    intro s1 i hi hp
    rw [← hp]
    have hi8 : i < 8 := List.mem_range.mp hi
    simp only [LedControl.clearRow, LedControl.rowByte, spiTransfer_status, touch_status]
    exact store_getD_ne _ _ _ _ (Or.inr (by unfold rowIndex; omega))

theorem setColumn_keeps (s : LedControl) (a c : Int) (v : Nat) (d r : Int)
    (hd : 0 ≤ d) (hr : 0 ≤ r ∧ r ≤ 7) (hne : a ≠ d) :
    (s.setColumn a c v).rowByte d r = s.rowByte d r := by
  simp only [LedControl.setColumn]
  split_ifs with h1 h2
  · rfl
  · rfl
  · apply foldl_keeps (fun s1 => s1.rowByte d r = s.rowByte d r) _ _ _ rfl
    intro s1 i _ hp
    rw [← hp]
    exact setLed_keeps s1 a i c _ d r hd hr (fun h => hne h.1)

theorem control_keeps (s : LedControl) (a x : Int) (b : Bool) (d r : Int) :
    (s.shutdown a b).rowByte d r = s.rowByte d r ∧
    (s.setScanLimit a x).rowByte d r = s.rowByte d r ∧
    (s.setIntensity a x).rowByte d r = s.rowByte d r := by
  refine ⟨?_, ?_, ?_⟩
  · simp only [LedControl.shutdown]
    split_ifs <;> simp [LedControl.rowByte, spiTransfer_status]
  · simp only [LedControl.setScanLimit]
    split_ifs <;> simp [LedControl.rowByte, spiTransfer_status]
  · simp only [LedControl.setIntensity]
    split_ifs <;> simp [LedControl.rowByte, spiTransfer_status]

theorem run_keeps (s : LedControl) (op : Op) (d r : Int)
    (hd : 0 ≤ d) (hr : 0 ≤ r ∧ r ≤ 7) (hne : ¬ op.addresses d r) :
    (op.run s).rowByte d r = s.rowByte d r := by
  cases op with
  | begin i => exact absurd trivial hne
  | clear => exact absurd trivial hne
  | shutdown a b => exact (control_keeps s a 0 b d r).1
  | setScanLimit a l => exact (control_keeps s a l true d r).2.1
  | setIntensity a i => exact (control_keeps s a i true d r).2.2
  | clearDisplay a => exact clearDisplay_keeps s a d r hd hr hne
  | setLed a r1 c b => exact setLed_keeps s a r1 c b d r hd hr hne
  | drawPixel x y c =>
    simp only [Op.run, LedControl.drawPixel]
    split_ifs
    · rfl
    · exact setLed_keeps s 0 y x _ d r hd hr (fun h => hne ⟨h.1.symm, h.2⟩)
  | setRow a r1 v => exact setRow_keeps s a r1 v d r hd hr hne
  | setColumn a c v => exact setColumn_keeps s a c v d r hd hr hne
  | setDigit a p v dp => exact setDigit_keeps s a p v dp d r hd hr hne
  | setChar a p v dp => exact setChar_keeps s a p v dp d r hd hr hne

theorem runOps_keeps (ops : List Op) (s : LedControl) (d r : Int)
    (hd : 0 ≤ d) (hr : 0 ≤ r ∧ r ≤ 7) (hne : ∀ op ∈ ops, ¬ op.addresses d r) :
    (runOps s ops).rowByte d r = s.rowByte d r := by
  induction ops generalizing s with
  | nil => rfl
  | cons op ops ih =>
    have h1 : (runOps (op.run s) ops).rowByte d r = (op.run s).rowByte d r :=
      ih (op.run s) (fun o ho => hne o (List.mem_cons_of_mem _ ho))
    have h2 := run_keeps s op d r hd hr (hne op (List.mem_cons_self _ _))
    exact h1.trans h2

end Frame

/-! ## Loops over the eight rows of one device -/

section RowLoop

theorem succ_toNat (k : Nat) : ((k : Int) + 1).toNat = k + 1 := by omega

theorem rowIndex_inj (d : Int) (hd : 0 ≤ d) (r k : Nat) (h : r ≠ k) :
    rowIndex d k ≠ rowIndex d r := by
  unfold rowIndex
  omega

/-- A loop over rows `0 .. k-1` of device `d` whose body is a row write of
`g r old`: the result in closed form. -/
theorem rowLoop_exists (s : LedControl) (hs : s.WF) (d : Int)
    (hd : 0 ≤ d ∧ d < s.maxDevices) (g : Nat → Nat → Nat)
    (hg : ∀ r old, old < 256 → g r old < 256)
    (step : LedControl → Nat → LedControl)
    (hstep : ∀ (s1 : LedControl) (r : Nat), s1.WF → s1.maxDevices = s.maxDevices → r < 8 →
      step s1 r = s1.rowWrite d r (g r (s1.rowByte d r)))
    (k : Nat) (hk : k ≤ 8) :
    ∃ st : List Nat,
      (List.range k).foldl step s =
        s.update st ((List.range k).flatMap
          (fun r => transaction s d (r + 1) (g r (s.rowByte d r)))) ∧
      st.length = s.status.length ∧ (∀ b ∈ st, b < 256) ∧
      (∀ r : Nat, r < k → st.getD (rowIndex d r) 0 = g r (s.rowByte d r)) ∧
      (∀ i : Nat, (∀ r : Nat, r < k → i ≠ rowIndex d r) → st.getD i 0 = s.status.getD i 0) := by
  induction k with
  | zero =>
    refine ⟨s.status, ?_, rfl, hs.2.2, ?_, fun i _ => rfl⟩
    · simp [LedControl.update]
    · intro r hr
      omega
  | succ k ih =>
    obtain ⟨st, e, hlen, hbytes, hrows, hothers⟩ := ih (by omega)
    have hwf : (s.update st ((List.range k).flatMap
        (fun r => transaction s d (r + 1) (g r (s.rowByte d r))))).WF :=
      ⟨hs.1, by simpa [LedControl.update, hlen] using hs.2.1, hbytes⟩
    have hold : st.getD (rowIndex d k) 0 = s.rowByte d k :=
      hothers _ (fun r hr => rowIndex_inj d hd.1 r k (by omega))
    have hx : g k (s.rowByte d k) < 256 :=
      hg _ _ (rowByte_lt s hs d k hd (by omega))
    have hidx : rowIndex d k < st.length := by
      rw [hlen]
      exact rowIndex_lt s hs d k hd (by omega)
    refine ⟨st.set (rowIndex d k) (g k (s.rowByte d k)), ?_, ?_, ?_, ?_, ?_⟩
    · rw [List.range_succ, List.foldl_append, e]
      simp only [List.foldl_cons, List.foldl_nil]
      rw [hstep _ k hwf rfl (by omega)]
      have hrb : (s.update st ((List.range k).flatMap
          (fun r => transaction s d (r + 1) (g r (s.rowByte d r))))).rowByte d k =
          s.rowByte d k := hold
      rw [hrb]
      simp [LedControl.rowWrite, LedControl.update, transaction_update, succ_toNat,
        List.flatMap_append]
      rfl
    · simpa using hlen
    · intro b hb
      rcases List.mem_or_eq_of_mem_set hb with h | h
      · exact hbytes b h
      · exact h ▸ hx
    · intro r hr
      by_cases hrk : r = k
      · subst hrk
        simp [hidx]
      · have hne := rowIndex_inj d hd.1 r k hrk
        simp only [List.getD_eq_getElem?_getD, List.getElem?_set_ne hne]
        simpa using hrows r (by omega)
    · intro i hi
      have hne : rowIndex d k ≠ i := fun h => hi k (by omega) h.symm
      simp only [List.getD_eq_getElem?_getD, List.getElem?_set_ne hne]
      simpa using hothers i (fun r hr => hi r (by omega))

theorem shift_bit (v k : Nat) (hv : v < 256) :
    ((v >>> k) % 256 &&& 0x01 != 0) = v.testBit k := by
  have h : (v >>> k) % 256 = v >>> k :=
    Nat.mod_eq_of_lt (lt_of_le_of_lt
      (by rw [Nat.shiftRight_eq_div_pow]; exact Nat.div_le_self v _) hv)
  rw [h, Nat.testBit, Nat.and_comm]

theorem columnStep_eq (s1 : LedControl) (hs : s1.WF) (d c : Int)
    (hd : 0 ≤ d ∧ d < s1.maxDevices) (hc : 0 ≤ c ∧ c ≤ 7) (v : Nat) (hv : v < 256)
    (r : Nat) (hr : r < 8) :
    LedControl.columnStep d c v s1 r =
      s1.rowWrite d r (ledByte (s1.rowByte d r) c.toNat (v.testBit (7 - r))) := by
  simp only [LedControl.columnStep]
  rw [shift_bit v _ hv]
  exact setLed_eq s1 hs d r c hd (by omega) hc _

end RowLoop

section Column

theorem setColumn_closed (s : LedControl) (hs : s.WF) (d c : Int)
    (hd : 0 ≤ d ∧ d < s.maxDevices) (hc : 0 ≤ c ∧ c ≤ 7) (v : Nat) (hv : v < 256) :
    ∃ st : List Nat,
      s.setColumn d c v =
        s.update st ((List.range 8).flatMap (fun r =>
          transaction s d (r + 1) (ledByte (s.rowByte d r) c.toNat (v.testBit (7 - r))))) ∧
      st.length = s.status.length ∧ (∀ b ∈ st, b < 256) ∧
      (∀ r : Nat, r < 8 →
        st.getD (rowIndex d r) 0 = ledByte (s.rowByte d r) c.toNat (v.testBit (7 - r))) ∧
      (∀ i : Nat, (∀ r : Nat, r < 8 → i ≠ rowIndex d r) →
        st.getD i 0 = s.status.getD i 0) := by
  have h1 : ¬ (d < 0 ∨ d ≥ s.maxDevices) := by omega
  have h2 : ¬ (c < 0 ∨ c > 7) := by omega
  have hc7 : c.toNat ≤ 7 := by omega
  simp only [LedControl.setColumn, if_neg h1, if_neg h2, Nat.mod_eq_of_lt hv]
  exact rowLoop_exists s hs d hd
    (fun r old => ledByte old c.toNat (v.testBit (7 - r)))
    (fun r old hold => ledByte_lt old _ _ hold hc7)
    (LedControl.columnStep d c v)
    (fun s1 r hs1 hm hr => columnStep_eq s1 hs1 d c (by rw [hm]; exact hd) hc v hv r hr)
    8 (le_refl 8)

theorem setColumn_as_setLed (s : LedControl) (d c : Int) (v : Nat) (hv : v < 256)
    (hd : 0 ≤ d ∧ d < s.maxDevices) (hc : 0 ≤ c ∧ c ≤ 7) :
    s.setColumn d c v =
      (List.range 8).foldl (fun s1 r => s1.setLed d r c (v.testBit (7 - r))) s := by
  have h1 : ¬ (d < 0 ∨ d ≥ s.maxDevices) := by omega
  have h2 : ¬ (c < 0 ∨ c > 7) := by omega
  have hf : LedControl.columnStep d c v =
      fun s1 r => s1.setLed d r c (v.testBit (7 - r)) := by
    funext s1 r
    simp only [LedControl.columnStep]
    rw [shift_bit v _ hv]
  simp only [LedControl.setColumn, if_neg h1, if_neg h2, Nat.mod_eq_of_lt hv, hf]

theorem column_example (r : Nat) (hr : r < 8) :
    ledByte 0 3 ((0b10100000 : Nat).testBit (7 - r)) =
      if r = 0 ∨ r = 2 then 0b00010000 else 0 := by
  interval_cases r <;> decide

end Column

/-! ## The platform: `int` and the heap -/

section PlatformFacts

theorem half_pos (p : Platform) : 0 < p.half := by
  unfold Platform.half
  positivity

theorem wrap_of_isInt (p : Platform) (x : Int) (h : p.isInt x) : p.wrap x = x := by
  unfold Platform.wrap
  have hp := half_pos p
  rw [Int.emod_eq_of_lt (by have := h.1; omega) (by have := h.2; omega)]
  omega

theorem ite_eq_max (n : Int) : (if n < 1 then 1 else n) = max 1 n := by
  split <;> omega

theorem size_of_fits (p : Platform) (n : Int) (hf : p.fits n) :
    p.wrap (max 1 n * 8) = max 1 n * 8 := by
  have h1 : (1 : Int) ≤ max 1 n := le_max_left _ _
  have hp := half_pos p
  unfold Platform.fits at hf
  exact wrap_of_isInt p _ ⟨by omega, by omega⟩

theorem alloc_some (p : Platform) (n : Int) (st : List Nat) (h : p.allocZeroed n = some st) :
    st = List.replicate n.toNat 0 ∧ 0 ≤ n ∧ n ≤ (p.heap : Int) := by
  unfold Platform.allocZeroed at h
  split at h
  · next hc => exact ⟨(Option.some.inj h).symm, hc⟩
  · exact absurd h (by simp)

theorem newSoftware_fits (p : Platform) (dataPin clkPin csPin numDevices : Int)
    (hf : p.fits numDevices) (s : LedControl)
    (h : LedControl.newSoftware p dataPin clkPin csPin numDevices = some s) :
    s = LedControl.initSoftware (List.replicate (max 1 numDevices * 8).toNat 0)
      dataPin clkPin csPin (max 1 numDevices) := by
  simp only [LedControl.newSoftware, ite_eq_max, size_of_fits p numDevices hf,
    Option.map_eq_some'] at h
  obtain ⟨st, hst, rfl⟩ := h
  rw [(alloc_some p _ st hst).1]

theorem newHardware_fits (p : Platform) (csPin numDevices : Int)
    (hf : p.fits numDevices) (s : LedControl)
    (h : LedControl.newHardware p csPin numDevices = some s) :
    s = LedControl.initHardware (List.replicate (max 1 numDevices * 8).toNat 0)
      csPin (max 1 numDevices) := by
  simp only [LedControl.newHardware, ite_eq_max, size_of_fits p numDevices hf,
    Option.map_eq_some'] at h
  obtain ⟨st, hst, rfl⟩ := h
  rw [(alloc_some p _ st hst).1]

end PlatformFacts

/-! ## The devices follow the shadow buffer -/

section Devices

theorem clearRow_eq (s1 : LedControl) (hs : s1.WF) (a : Int)
    (ha : 0 ≤ a ∧ a < s1.maxDevices) (i : Nat) (hi : i < 8) :
    LedControl.clearRow a (a * 8) s1 i = s1.rowWrite a i 0 := by
  simp only [LedControl.clearRow]
  rw [store_transfer s1 hs a i ha (by omega)]

theorem litRow_built :
    LedControl.newSoftware avr 11 13 10 1 =
      some (LedControl.initSoftware (List.replicate 8 0) 11 13 10 1) := by
  rfl

end Devices

/-! ## A lit row, switched on and off -/

set_option maxRecDepth 100000 in
theorem litRow_on_off :
    litRow.rowByte 0 0 = 255 ∧
    ((litRow.setLed 0 0 0 true).setLed 0 0 0 false).rowByte 0 0 = 127 := by
  decide

/-! ## Control registers, the pixel adapter and the glyph table -/

section Control

theorem toByte_small (x : Int) (h : 0 ≤ x ∧ x < 256) : toByte x = x.toNat := by
  unfold toByte
  omega

theorem withEvents_status (s : LedControl) (es : List BusEvent) :
    (s.withEvents es).status = s.status := rfl

set_option maxRecDepth 20000 in
theorem charTable_hex (v : Nat) (hv : v ≤ 15) :
    (v < 10 → charTable.getD (48 + v) 0 = charTable.getD v 0) ∧
    (10 ≤ v → charTable.getD (55 + v) 0 = charTable.getD v 0 ∧
      charTable.getD (87 + v) 0 = charTable.getD v 0) := by
  interval_cases v <;> decide

theorem hexChar_index (v : Nat) (hv : v ≤ 15) (lower : Bool) :
    toByte (hexChar v lower) ≤ 127 ∧
    charTable.getD (toByte (hexChar v lower)) 0 = charTable.getD v 0 := by
  have h := charTable_hex v hv
  unfold hexChar
  split
  · next h10 =>
    have e : toByte (48 + (v : Int)) = 48 + v := by
      unfold toByte
      omega
    rw [e]
    exact ⟨by omega, h.1 h10⟩
  · next h10 =>
    cases lower
    · have e : toByte (55 + (v : Int)) = 55 + v := by
        unfold toByte
        omega
      simp only [Bool.false_eq_true, if_false, e]
      exact ⟨by omega, (h.2 (by omega)).1⟩
    · have e : toByte (87 + (v : Int)) = 87 + v := by
        unfold toByte
        omega
      simp only [if_true, e]
      exact ⟨by omega, (h.2 (by omega)).2⟩

end Control

/-! ## Loops over the devices of the chain -/

section DeviceLoop

theorem txEvents_append (s : LedControl) (a b : List (Int × Nat × Nat)) :
    txEvents s (a ++ b) = txEvents s a ++ txEvents s b := by
  simp [txEvents, List.flatMap_append]

theorem txEvents_update (s : LedControl) (st : List Nat) (es : List BusEvent)
    (l : List (Int × Nat × Nat)) : txEvents (s.update st es) l = txEvents s l := rfl

theorem txEvents_single (s : LedControl) (d : Int) (op x : Nat) :
    txEvents s [(d, op, x)] = transaction s d op x := by
  simp [txEvents]

theorem spiTransfer_WF (s : LedControl) (hs : s.WF) (t : Int) (op x : Nat) :
    (s.spiTransfer t op x).WF ∧ (s.spiTransfer t op x).maxDevices = s.maxDevices := by
  by_cases h : 0 ≤ t ∧ t < s.maxDevices
  · rw [spiTransfer_eq s t op x h]
    exact ⟨hs, rfl⟩
  · rw [spiTransfer_out s t op x h]
    exact ⟨hs, rfl⟩

theorem clearDisplay_step (s : LedControl) (hs : s.WF) (i : Nat)
    (hi : (i : Int) < s.maxDevices) :
    DeviceStep s (s.clearDisplay i) i (rowClears i) := by
  have hd : 0 ≤ (i : Int) ∧ (i : Int) < s.maxDevices := ⟨by omega, hi⟩
  have h1 : ¬ ((i : Int) < 0 ∨ (i : Int) ≥ s.maxDevices) := by omega
  obtain ⟨st, e, hlen, hbytes, hrows, hothers⟩ :=
    rowLoop_exists s hs i hd (fun _ _ => 0) (fun _ _ _ => by norm_num)
      (LedControl.clearRow i ((i : Int) * 8))
      (fun s1 r hs1 hm hr => clearRow_eq s1 hs1 i (by rw [hm]; exact hd) r hr)
      8 (le_refl 8)
  refine ⟨st, ?_, hlen, hbytes, hrows, hothers⟩
  simp only [LedControl.clearDisplay, if_neg h1]
  rw [e]
  simp [txEvents, rowClears, List.flatMap_map]

theorem step_before (s1 s2 : LedControl) (i : Nat) (txs : List (Int × Nat × Nat))
    (op x : Nat) (hi : (i : Int) < s1.maxDevices)
    (h : DeviceStep (s1.spiTransfer i op x) s2 i txs) :
    DeviceStep s1 s2 i (((i : Int), op, x) :: txs) := by
  obtain ⟨st, e, hlen, hbytes, hrows, hothers⟩ := h
  rw [spiTransfer_eq s1 i op x ⟨by omega, hi⟩, withEvents_eq_update] at e hlen hothers
  refine ⟨st, ?_, hlen, hbytes, hrows, hothers⟩
  rw [e, update_update, txEvents_update]
  rfl

theorem step_after (s1 s2 : LedControl) (i : Nat) (txs : List (Int × Nat × Nat))
    (op x : Nat) (hi : (i : Int) < s1.maxDevices) (h : DeviceStep s1 s2 i txs) :
    DeviceStep s1 (s2.spiTransfer i op x) i (txs ++ [((i : Int), op, x)]) := by
  obtain ⟨st, e, hlen, hbytes, hrows, hothers⟩ := h
  refine ⟨st, ?_, hlen, hbytes, hrows, hothers⟩
  rw [e, spiTransfer_update s1 st _ i op x ⟨by omega, hi⟩, txEvents_append, txEvents_single]

/-- A loop over devices `0 .. k-1` whose body is a `DeviceStep`: afterwards the
transactions of all passes are appended in order, the rows of the devices
visited are 0 and the rest of the buffer is unchanged. -/
theorem deviceLoop (s : LedControl) (hs : s.WF) (f : LedControl → Nat → LedControl)
    (T : Nat → List (Int × Nat × Nat))
    (hf : ∀ (s1 : LedControl) (i : Nat), s1.WF → s1.maxDevices = s.maxDevices →
      (i : Int) < s.maxDevices → DeviceStep s1 (f s1 i) i (T i))
    (k : Nat) (hk : (k : Int) ≤ s.maxDevices) :
    ∃ st : List Nat,
      (List.range k).foldl f s = s.update st (txEvents s ((List.range k).flatMap T)) ∧
      st.length = s.status.length ∧ (∀ b ∈ st, b < 256) ∧
      (∀ j : Nat, j < 8 * k → st.getD j 0 = 0) ∧
      (∀ j : Nat, 8 * k ≤ j → st.getD j 0 = s.status.getD j 0) := by
  induction k with
  | zero =>
    refine ⟨s.status, ?_, rfl, hs.2.2, fun j hj => by omega, fun _ _ => rfl⟩
    simp [LedControl.update, txEvents]
  | succ k ih =>
    obtain ⟨st, e, hlen, hbytes, hzero, hrest⟩ := ih (by omega)
    have hwf : (s.update st (txEvents s ((List.range k).flatMap T))).WF :=
      ⟨hs.1, by simpa [LedControl.update, hlen] using hs.2.1, hbytes⟩
    obtain ⟨st2, e2, hlen2, hbytes2, hrows2, hothers2⟩ := hf _ k hwf rfl (by omega)
    have hidx : ∀ r : Nat, rowIndex (k : Int) (r : Int) = 8 * k + r := by
      intro r
      unfold rowIndex
      omega
    refine ⟨st2, ?_, ?_, hbytes2, ?_, ?_⟩
    · rw [List.range_succ, List.foldl_append, e]
      simp only [List.foldl_cons, List.foldl_nil]
      rw [e2, update_update, txEvents_update, List.flatMap_append, txEvents_append]
      simp
    · rw [hlen2]
      exact hlen
    · intro j hj
      by_cases hjk : j < 8 * k
      · rw [hothers2 j (fun r _ => by rw [hidx]; omega)]
        exact hzero j hjk
      · have := hrows2 (j - 8 * k) (by omega)
        rw [hidx] at this
        rw [← this]
        congr 1
        omega
    · intro j hj
      rw [hothers2 j (fun r _ => by rw [hidx]; omega)]
      exact hrest j (by omega)

theorem all_zero (st : List Nat) (n : Nat) (hlen : st.length = n)
    (hz : ∀ j : Nat, j < n → st.getD j 0 = 0) : st = List.replicate n 0 := by
  rw [List.eq_replicate_iff]
  refine ⟨hlen, fun b hb => ?_⟩
  obtain ⟨j, hj, rfl⟩ := List.getElem_of_mem hb
  have := hz j (by omega)
  rwa [List.getD_eq_getElem _ _ hj] at this

theorem shutdown_eq (s : LedControl) (d : Int) (hd : 0 ≤ d ∧ d < s.maxDevices) (b : Bool) :
    s.shutdown d b = s.spiTransfer d 12 (if b then 0 else 1) := by
  have h1 : ¬ (d < 0 ∨ d ≥ s.maxDevices) := by omega
  simp only [LedControl.shutdown, if_neg h1, OP_SHUTDOWN]

theorem setScanLimit_eq (s : LedControl) (d : Int) (hd : 0 ≤ d ∧ d < s.maxDevices)
    (l : Int) (hl : 0 ≤ l ∧ l ≤ 7) : s.setScanLimit d l = s.spiTransfer d 11 l.toNat := by
  have h1 : ¬ (d < 0 ∨ d ≥ s.maxDevices) := by omega
  have h2 : l ≥ 0 ∧ l < 8 := by omega
  simp only [LedControl.setScanLimit, if_neg h1, if_pos h2, OP_SCANLIMIT]
  rw [toByte_small l (by omega)]

theorem setIntensity_eq (s : LedControl) (d : Int) (hd : 0 ≤ d ∧ d < s.maxDevices)
    (i : Int) (hi : 0 ≤ i ∧ i ≤ 15) : s.setIntensity d i = s.spiTransfer d 10 i.toNat := by
  have h1 : ¬ (d < 0 ∨ d ≥ s.maxDevices) := by omega
  have h2 : i ≥ 0 ∧ i < 16 := by omega
  simp only [LedControl.setIntensity, if_neg h1, if_pos h2, OP_INTENSITY]
  rw [toByte_small i (by omega)]

theorem beginStep_step (s1 : LedControl) (hs : s1.WF) (i : Nat)
    (hi : (i : Int) < s1.maxDevices) (intensity : Int) (hint : 0 ≤ intensity ∧ intensity ≤ 15) :
    DeviceStep s1 (LedControl.beginStep intensity s1 i) i
      (beginSequence intensity.toNat i) := by
  have hd : 0 ≤ (i : Int) ∧ (i : Int) < s1.maxDevices := ⟨by omega, hi⟩
  have w1 := spiTransfer_WF s1 hs i 12 1
  have w2 := spiTransfer_WF _ w1.1 i 10 intensity.toNat
  simp only [LedControl.beginStep]
  rw [shutdown_eq s1 i hd false]
  simp only [Bool.false_eq_true, if_false]
  rw [setIntensity_eq _ i (by rw [w1.2]; exact hd) intensity hint]
  apply step_before s1 _ i _ 12 1 hi
  apply step_before _ _ i _ 10 intensity.toNat (by rw [w1.2]; exact hi)
  exact clearDisplay_step _ w2.1 i (by rw [w2.2, w1.2]; exact hi)

theorem initStep_step (s1 : LedControl) (hs : s1.WF) (i : Nat)
    (hi : (i : Int) < s1.maxDevices) :
    DeviceStep s1 (s1.initStep i) i (initSequence i) := by
  have hd : 0 ≤ (i : Int) ∧ (i : Int) < s1.maxDevices := ⟨by omega, hi⟩
  have w1 := spiTransfer_WF s1 hs i 15 0
  have w2 := spiTransfer_WF _ w1.1 i 11 7
  have w3 := spiTransfer_WF _ w2.1 i 9 0
  have hc := clearDisplay_step _ w3.1 i (by rw [w3.2, w2.2, w1.2]; exact hi)
  have hb := step_before s1 _ i _ 15 0 hi
    (step_before _ _ i _ 11 7 (by rw [w1.2]; exact hi)
      (step_before _ _ i _ 9 0 (by rw [w2.2, w1.2]; exact hi) hc))
  have ha := step_after s1 _ i _ 12 0 hi hb
  simp only [LedControl.initStep, OP_DISPLAYTEST, OP_DECODEMODE]
  have h7 : (7 : Int).toNat = 7 := rfl
  rw [setScanLimit_eq _ i (by rw [w1.2]; exact hd) 7 (by decide), h7]
  have hm : (((((s1.spiTransfer i 15 0).spiTransfer i 11 7).spiTransfer i 9
      0).clearDisplay i)).maxDevices = s1.maxDevices := by
    obtain ⟨st, e, _⟩ := hb
    rw [e]
    rfl
  rw [shutdown_eq _ i (by rw [hm]; exact hd) true]
  exact ha

theorem clear_eq_foldl (s : LedControl) :
    s.clear = (List.range s.maxDevices.toNat).foldl (fun s1 (i : Nat) => s1.clearDisplay i) s := by
  unfold LedControl.clear
  generalize List.range s.maxDevices.toNat = l
  induction l generalizing s with
  | nil => rfl
  | cons a l ih => exact ih (s.clearDisplay a)

theorem clear_closed (s : LedControl) (hs : s.WF) :
    s.clear = s.update (List.replicate s.status.length 0)
      (txEvents s (forEachDevice s.maxDevices rowClears)) := by
  obtain ⟨st, e, hlen, _, hzero, _⟩ :=
    deviceLoop s hs (fun s1 i => s1.clearDisplay (i : Int)) (fun i => rowClears (i : Int))
      (fun s1 i hs1 hm hi => clearDisplay_step s1 hs1 i (by rw [hm]; exact hi))
      s.maxDevices.toNat (by have := hs.1; omega)
  have hst : st = List.replicate s.status.length 0 :=
    all_zero st _ hlen (fun j hj => hzero j (by have := hs.2.1; omega))
  rw [← hst, clear_eq_foldl]
  unfold forEachDevice
  exact e

theorem begin_closed (s : LedControl) (hs : s.WF) (intensity : Int)
    (hint : 0 ≤ intensity ∧ intensity ≤ 15) :
    s.begin intensity = s.update (List.replicate s.status.length 0)
      (txEvents s (forEachDevice s.maxDevices (beginSequence intensity.toNat))) := by
  obtain ⟨st, e, hlen, _, hzero, _⟩ :=
    deviceLoop s hs (LedControl.beginStep intensity)
      (fun i => beginSequence intensity.toNat (i : Int))
      (fun s1 i hs1 hm hi => beginStep_step s1 hs1 i (by rw [hm]; exact hi) intensity hint)
      s.maxDevices.toNat (by have := hs.1; omega)
  have hst : st = List.replicate s.status.length 0 :=
    all_zero st _ hlen (fun j hj => hzero j (by have := hs.2.1; omega))
  rw [← hst]
  unfold LedControl.begin LedControl.getDeviceCount forEachDevice
  exact e

theorem construct_closed (s0 : LedControl) (N : Int) (hN : 1 ≤ N)
    (hm : s0.maxDevices = N) (hst : s0.status = List.replicate (N * 8).toNat 0) :
    (List.range s0.maxDevices.toNat).foldl LedControl.initStep s0 =
      s0.update (List.replicate (8 * N.toNat) 0) (txEvents s0 (forEachDevice N initSequence)) := by
  have hs : s0.WF := by
    refine ⟨by omega, ?_, ?_⟩
    · rw [hst, List.length_replicate, hm]
      omega
    · intro b hb
      rw [hst] at hb
      rw [List.eq_of_mem_replicate hb]
      norm_num
  obtain ⟨st, e, hlen, _, hzero, _⟩ :=
    deviceLoop s0 hs LedControl.initStep (fun i => initSequence (i : Int))
      (fun s1 i hs1 hm1 hi => initStep_step s1 hs1 i (by rw [hm1]; exact hi))
      s0.maxDevices.toNat (by omega)
  have hl : st.length = 8 * N.toNat := by
    rw [hlen, hst, List.length_replicate]
    omega
  have hst2 : st = List.replicate (8 * N.toNat) 0 :=
    all_zero st _ hl (fun j hj => hzero j (by rw [hm]; exact hj))
  rw [e, hst2, hm]
  rfl

theorem rowClears_eq (d : Int) :
    rowClears d =
      [(d, 1, 0), (d, 2, 0), (d, 3, 0), (d, 4, 0), (d, 5, 0), (d, 6, 0), (d, 7, 0), (d, 8, 0)] := by
  simp [rowClears, List.range_succ]

theorem forEachDevice_length (N : Int) (T : Int → List (Int × Nat × Nat)) (n : Nat)
    (h : ∀ i, (T i).length = n) : (forEachDevice N T).length = n * N.toNat := by
  unfold forEachDevice
  generalize N.toNat = k
  induction k with
  | zero => simp
  | succ k ih =>
    rw [List.range_succ, List.flatMap_append, List.length_append, ih]
    simp [h, Nat.mul_succ]

theorem initSoftware_closed (dataPin clkPin csPin N : Int) (hN : 1 ≤ N) :
    LedControl.initSoftware (List.replicate (N * 8).toNat 0) dataPin clkPin csPin N =
      LedControl.update
        { SPI_MOSI := dataPin, SPI_CLK := clkPin, SPI_CS := csPin,
          maxDevices := N, hardwareSPI := false,
          status := List.replicate (N * 8).toNat 0,
          bus := [.pinMode dataPin, .pinMode clkPin, .pinMode csPin,
                  .digitalWrite csPin true],
          oob := false }
        (List.replicate (8 * N.toNat) 0)
        (txEvents
          { SPI_MOSI := dataPin, SPI_CLK := clkPin, SPI_CS := csPin,
            maxDevices := N, hardwareSPI := false,
            status := [], bus := [], oob := false }
          (forEachDevice N initSequence)) :=
  construct_closed
    { SPI_MOSI := dataPin, SPI_CLK := clkPin, SPI_CS := csPin,
      maxDevices := N, hardwareSPI := false,
      status := List.replicate (N * 8).toNat 0,
      bus := [.pinMode dataPin, .pinMode clkPin, .pinMode csPin, .digitalWrite csPin true],
      oob := false } N hN rfl rfl

theorem initHardware_closed (csPin N : Int) (hN : 1 ≤ N) :
    LedControl.initHardware (List.replicate (N * 8).toNat 0) csPin N =
      LedControl.update
        { SPI_MOSI := 0, SPI_CLK := 0, SPI_CS := csPin,
          maxDevices := N, hardwareSPI := true,
          status := List.replicate (N * 8).toNat 0,
          bus := [.pinMode csPin, .digitalWrite csPin true, .spiBegin],
          oob := false }
        (List.replicate (8 * N.toNat) 0)
        (txEvents
          { SPI_MOSI := 0, SPI_CLK := 0, SPI_CS := csPin,
            maxDevices := N, hardwareSPI := true,
            status := [], bus := [], oob := false }
          (forEachDevice N initSequence)) :=
  construct_closed
    { SPI_MOSI := 0, SPI_CLK := 0, SPI_CS := csPin,
      maxDevices := N, hardwareSPI := true,
      status := List.replicate (N * 8).toNat 0,
      bus := [.pinMode csPin, .digitalWrite csPin true, .spiBegin],
      oob := false } N hN rfl rfl

end DeviceLoop

/-! ## Index safety -/

section Safety

theorem safe_rowWrite (s : LedControl) (h : Safe s) (d r : Int) (x : Nat) (hx : x < 256) :
    Safe (s.rowWrite d r x) :=
  ⟨rowWrite_WF s h.1 d r x hx, h.2⟩

theorem safe_spiTransfer (s : LedControl) (h : Safe s) (t : Int) (op x : Nat) :
    Safe (s.spiTransfer t op x) := by
  by_cases ht : 0 ≤ t ∧ t < s.maxDevices
  · rw [spiTransfer_eq s t op x ht]
    exact h
  · rw [spiTransfer_out s t op x ht]
    exact h

theorem safe_shutdown (s : LedControl) (h : Safe s) (a : Int) (b : Bool) :
    Safe (s.shutdown a b) := by
  simp only [LedControl.shutdown]
  split
  · exact h
  · exact safe_spiTransfer s h _ _ _

theorem safe_setScanLimit (s : LedControl) (h : Safe s) (a l : Int) :
    Safe (s.setScanLimit a l) := by
  simp only [LedControl.setScanLimit]
  split_ifs
  · exact h
  · exact safe_spiTransfer s h _ _ _
  · exact h

theorem safe_setIntensity (s : LedControl) (h : Safe s) (a l : Int) :
    Safe (s.setIntensity a l) := by
  simp only [LedControl.setIntensity]
  split_ifs
  · exact h
  · exact safe_spiTransfer s h _ _ _
  · exact h

theorem safe_setRow (s : LedControl) (h : Safe s) (a r : Int) (v : Nat) :
    Safe (s.setRow a r v) := by
  by_cases hin : (0 ≤ a ∧ a < s.maxDevices) ∧ (0 ≤ r ∧ r ≤ 7)
  · rw [setRow_eq s h.1 a r hin.1 hin.2]
    exact safe_rowWrite s h a r _ (Nat.mod_lt _ (by norm_num))
  · have : s.setRow a r v = s := by
      simp only [LedControl.setRow]
      split_ifs <;> first | rfl | omega
    rw [this]
    exact h

theorem safe_setLed (s : LedControl) (h : Safe s) (a r c : Int) (b : Bool) :
    Safe (s.setLed a r c b) := by
  by_cases hin : (0 ≤ a ∧ a < s.maxDevices) ∧ (0 ≤ r ∧ r ≤ 7) ∧ (0 ≤ c ∧ c ≤ 7)
  · rw [setLed_eq s h.1 a r c hin.1 hin.2.1 hin.2.2]
    exact safe_rowWrite s h a r _
      (ledByte_lt _ _ _ (rowByte_lt s h.1 a r hin.1 hin.2.1) (by omega))
  · have : s.setLed a r c b = s := by
      simp only [LedControl.setLed]
      split_ifs <;> first | rfl | omega
    rw [this]
    exact h

theorem safe_setDigit (s : LedControl) (h : Safe s) (a p : Int) (v : Nat) (dp : Bool) :
    Safe (s.setDigit a p v dp) := by
  by_cases hin : (0 ≤ a ∧ a < s.maxDevices) ∧ (0 ≤ p ∧ p ≤ 7) ∧ v % 256 ≤ 15
  · rw [setDigit_eq s h.1 a p hin.1 hin.2.1 v hin.2.2]
    exact safe_rowWrite s h a p _ (glyphByte_lt _ _)
  · have : s.setDigit a p v dp = s := by
      simp only [LedControl.setDigit]
      split_ifs <;> first | rfl | omega
    rw [this]
    exact h

theorem safe_setChar (s : LedControl) (h : Safe s) (a p code : Int) (dp : Bool) :
    Safe (s.setChar a p code dp) := by
  by_cases hin : (0 ≤ a ∧ a < s.maxDevices) ∧ (0 ≤ p ∧ p ≤ 7)
  · rw [setChar_eq s h.1 a p hin.1 hin.2]
    exact safe_rowWrite s h a p _ (glyphByte_lt _ _)
  · have : s.setChar a p code dp = s := by
      simp only [LedControl.setChar]
      split_ifs <;> first | rfl | omega
    rw [this]
    exact h

theorem safe_clearDisplay (s : LedControl) (h : Safe s) (a : Int) :
    Safe (s.clearDisplay a) := by
  simp only [LedControl.clearDisplay]
  split_ifs with h1
  · exact h
  · have ha : 0 ≤ a ∧ a < s.maxDevices := by omega
    have := foldl_keeps (fun s1 => Safe s1 ∧ s1.maxDevices = s.maxDevices)
      (LedControl.clearRow a (a * 8)) (List.range 8) s ⟨h, rfl⟩
      (fun s1 i hi hp => by
        rw [clearRow_eq s1 hp.1.1 a (by rw [hp.2]; exact ha) i (List.mem_range.mp hi)]
        exact ⟨safe_rowWrite s1 hp.1 a i 0 (by norm_num), hp.2⟩)
    exact this.1

theorem safe_run (s : LedControl) (h : Safe s) (op : Op) : Safe (op.run s) := by
  cases op with
  | begin i =>
    exact foldl_keeps Safe _ _ s h (fun s1 a _ hs1 =>
      safe_clearDisplay _ (safe_setIntensity _ (safe_shutdown s1 hs1 a false) a i) a)
  | shutdown a b => exact safe_shutdown s h a b
  | setScanLimit a l => exact safe_setScanLimit s h a l
  | setIntensity a i => exact safe_setIntensity s h a i
  | clearDisplay a => exact safe_clearDisplay s h a
  | clear => exact foldl_keeps Safe _ _ s h (fun s1 a _ hs1 => safe_clearDisplay s1 hs1 a)
  | setLed a r c b => exact safe_setLed s h a r c b
  | drawPixel x y c =>
    simp only [Op.run, LedControl.drawPixel]
    split_ifs
    · exact h
    · exact safe_setLed s h 0 y x _
  | setRow a r v => exact safe_setRow s h a r v
  | setColumn a c v =>
    simp only [Op.run, LedControl.setColumn]
    split_ifs
    · exact h
    · exact h
    · exact foldl_keeps Safe _ _ s h (fun s1 row _ hs1 => safe_setLed s1 hs1 a row c _)
  | setDigit a p v dp => exact safe_setDigit s h a p v dp
  | setChar a p v dp => exact safe_setChar s h a p v dp

theorem safe_initStep (s : LedControl) (h : Safe s) (i : Nat) : Safe (s.initStep i) := by
  simp only [LedControl.initStep]
  exact safe_shutdown _ (safe_clearDisplay _ (safe_spiTransfer _
    (safe_setScanLimit _ (safe_spiTransfer s h _ _ _) _ _) _ _ _) _) _ _

theorem safe_initSoftware (dataPin clkPin csPin N : Int) (hN : 1 ≤ N) :
    Safe (LedControl.initSoftware (List.replicate (N * 8).toNat 0) dataPin clkPin csPin N) := by
  rw [initSoftware_closed _ _ _ _ hN]
  refine ⟨⟨hN, ?_, ?_⟩, rfl⟩
  · simp only [LedControl.update, List.length_replicate]
    omega
  · intro b hb
    rw [List.eq_of_mem_replicate hb]
    norm_num

theorem safe_initHardware (csPin N : Int) (hN : 1 ≤ N) :
    Safe (LedControl.initHardware (List.replicate (N * 8).toNat 0) csPin N) := by
  rw [initHardware_closed _ _ hN]
  refine ⟨⟨hN, ?_, ?_⟩, rfl⟩
  · simp only [LedControl.update, List.length_replicate]
    omega
  · intro b hb
    rw [List.eq_of_mem_replicate hb]
    norm_num

theorem safe_reachable (p : Platform) (numDevices : Int) (hf : p.fits numDevices)
    (s : LedControl) (h : Reachable p numDevices s) : Safe s := by
  induction h with
  | software dataPin clkPin csPin s _ hs =>
    rw [newSoftware_fits p dataPin clkPin csPin numDevices hf s hs]
    exact safe_initSoftware _ _ _ _ (le_max_left _ _)
  | hardware csPin s _ hs =>
    rw [newHardware_fits p csPin numDevices hf s hs]
    exact safe_initHardware _ _ (le_max_left _ _)
  | step s op _ ih => exact safe_run s ih op

theorem store_oob (s : LedControl) (i : Int) (v : Nat) :
    (s.store i v).oob = false ↔ s.oob = false ∧ 0 ≤ i ∧ i < (s.status.length : Int) := by
  unfold LedControl.store
  split
  · next h => simp [h]
  · next h => simp [h]

theorem touch_oob (s : LedControl) (i : Int) :
    (s.touch i).oob = false ↔ s.oob = false ∧ 0 ≤ i ∧ i < (s.status.length : Int) := by
  unfold LedControl.touch
  split
  · next h => simp [h]
  · next h => simp [h]

theorem touchTable_oob (s : LedControl) (i : Nat) :
    (s.touchTable i).oob = false ↔ s.oob = false ∧ i < charTable.length := by
  unfold LedControl.touchTable
  split
  · next h => simp [h]
  · next h => simp [h]

theorem spiTransfer_oob (s : LedControl) (t : Int) (op x : Nat) :
    (s.spiTransfer t op x).oob = s.oob := by
  by_cases ht : 0 ≤ t ∧ t < s.maxDevices
  · rw [spiTransfer_eq s t op x ht]
    rfl
  · rw [spiTransfer_out s t op x ht]

end Safety

/-! ## The two backends -/

section Backends

theorem canon_append (xs ys : List BusEvent) : canon (xs ++ ys) = canon xs ++ canon ys := by
  induction xs with
  | nil => rfl
  | cons e es ih => cases e <;> simp [canon, ih]

theorem wireView_canon (es : List BusEvent) : wireView (canon es) = wireView es := by
  induction es with
  | nil => rfl
  | cons e es ih => cases e <;> simp [canon, wireView, ih]

theorem norm_maxDevices (s : LedControl) : (norm s).maxDevices = s.maxDevices := rfl

theorem norm_load (s : LedControl) (i : Int) : (norm s).load i = s.load i := rfl

theorem norm_store (s : LedControl) (i : Int) (v : Nat) :
    norm (s.store i v) = (norm s).store i v := by
  unfold LedControl.store
  show norm (if 0 ≤ i ∧ i < (s.status.length : Int) then _ else _) =
    if 0 ≤ i ∧ i < (s.status.length : Int) then _ else _
  split <;> rfl

theorem norm_touch (s : LedControl) (i : Int) : norm (s.touch i) = (norm s).touch i := by
  unfold LedControl.touch
  show norm (if 0 ≤ i ∧ i < (s.status.length : Int) then _ else _) =
    if 0 ≤ i ∧ i < (s.status.length : Int) then _ else _
  split <;> rfl

theorem norm_touchTable (s : LedControl) (i : Nat) :
    norm (s.touchTable i) = (norm s).touchTable i := by
  unfold LedControl.touchTable
  split <;> rfl

theorem canon_frames (s : LedControl) (fs : List (Nat × Nat)) :
    canon (fs.flatMap (fun f => [wireEvent s f.1, wireEvent s f.2])) =
      fs.flatMap (fun f => [wireEvent (norm s) f.1, wireEvent (norm s) f.2]) := by
  induction fs with
  | nil => rfl
  | cons f fs ih =>
    simp only [List.flatMap_cons, canon_append, ih]
    congr 1
    cases hh : s.hardwareSPI <;> simp [wireEvent, hh, norm, canon]

theorem canon_transaction (s : LedControl) (t : Int) (op x : Nat) :
    canon (transaction s t op x) = transaction (norm s) t op x := by
  unfold transaction
  simp only [canon_append, canon_frames, norm_maxDevices]
  cases hh : s.hardwareSPI <;> simp [canon, norm]

theorem norm_spiTransfer (s : LedControl) (t : Int) (op x : Nat) :
    norm (s.spiTransfer t op x) = (norm s).spiTransfer t op x := by
  by_cases ht : 0 ≤ t ∧ t < s.maxDevices
  · rw [spiTransfer_eq s t op x ht, spiTransfer_eq (norm s) t op x ht, ← canon_transaction]
    simp [norm, LedControl.withEvents, canon_append]
  · rw [spiTransfer_out s t op x ht, spiTransfer_out (norm s) t op x ht]

theorem norm_foldl {α : Type} (f : LedControl → α → LedControl)
    (hf : ∀ s a, norm (f s a) = f (norm s) a) (l : List α) (s : LedControl) :
    norm (l.foldl f s) = l.foldl f (norm s) := by
  induction l generalizing s with
  | nil => rfl
  | cons a l ih => simp only [List.foldl_cons, ih, hf]

theorem norm_shutdown (s : LedControl) (a : Int) (b : Bool) :
    norm (s.shutdown a b) = (norm s).shutdown a b := by
  simp only [LedControl.shutdown, norm_maxDevices]
  split_ifs <;> simp only [← norm_spiTransfer]

theorem norm_setScanLimit (s : LedControl) (a l : Int) :
    norm (s.setScanLimit a l) = (norm s).setScanLimit a l := by
  simp only [LedControl.setScanLimit, norm_maxDevices]
  split_ifs <;> simp only [← norm_spiTransfer]

theorem norm_setIntensity (s : LedControl) (a l : Int) :
    norm (s.setIntensity a l) = (norm s).setIntensity a l := by
  simp only [LedControl.setIntensity, norm_maxDevices]
  split_ifs <;> simp only [← norm_spiTransfer]

theorem norm_clearRow (a offset : Int) (s : LedControl) (i : Nat) :
    norm (LedControl.clearRow a offset s i) = LedControl.clearRow a offset (norm s) i := by
  simp only [LedControl.clearRow, ← norm_store, ← norm_touch, norm_load, ← norm_spiTransfer]

theorem norm_clearDisplay (s : LedControl) (a : Int) :
    norm (s.clearDisplay a) = (norm s).clearDisplay a := by
  simp only [LedControl.clearDisplay, norm_maxDevices]
  split_ifs
  · rfl
  · exact norm_foldl _ (norm_clearRow a (a * 8)) _ s

theorem norm_setLed (s : LedControl) (a r c : Int) (b : Bool) :
    norm (s.setLed a r c b) = (norm s).setLed a r c b := by
  simp only [LedControl.setLed, norm_maxDevices]
  split_ifs <;>
    simp only [← norm_store, ← norm_touch, norm_load, ← norm_spiTransfer]

theorem norm_setRow (s : LedControl) (a r : Int) (v : Nat) :
    norm (s.setRow a r v) = (norm s).setRow a r v := by
  simp only [LedControl.setRow, norm_maxDevices]
  split_ifs <;>
    simp only [← norm_store, ← norm_touch, norm_load, ← norm_spiTransfer]

theorem norm_setDigit (s : LedControl) (a p : Int) (v : Nat) (dp : Bool) :
    norm (s.setDigit a p v dp) = (norm s).setDigit a p v dp := by
  simp only [LedControl.setDigit, norm_maxDevices]
  split_ifs <;>
    simp only [← norm_store, ← norm_touchTable, ← norm_spiTransfer]

theorem norm_setChar (s : LedControl) (a p code : Int) (dp : Bool) :
    norm (s.setChar a p code dp) = (norm s).setChar a p code dp := by
  simp only [LedControl.setChar, norm_maxDevices]
  split_ifs <;>
    simp only [← norm_store, ← norm_touchTable, ← norm_spiTransfer]

theorem norm_run (s : LedControl) (op : Op) : norm (op.run s) = op.run (norm s) := by
  cases op with
  | begin i =>
    exact norm_foldl _ (fun s1 a => by
      simp only [LedControl.beginStep, norm_clearDisplay, norm_setIntensity, norm_shutdown]) _ s
  | shutdown a b => exact norm_shutdown s a b
  | setScanLimit a l => exact norm_setScanLimit s a l
  | setIntensity a i => exact norm_setIntensity s a i
  | clearDisplay a => exact norm_clearDisplay s a
  | clear => exact norm_foldl _ (fun s1 a => norm_clearDisplay s1 a) _ s
  | setLed a r c b => exact norm_setLed s a r c b
  | drawPixel x y c =>
    simp only [Op.run, LedControl.drawPixel]
    split_ifs
    · rfl
    · exact norm_setLed s 0 y x _
  | setRow a r v => exact norm_setRow s a r v
  | setColumn a c v =>
    simp only [Op.run, LedControl.setColumn, norm_maxDevices]
    split_ifs
    · rfl
    · rfl
    · exact norm_foldl _ (fun s1 row => by
        simp only [LedControl.columnStep, norm_setLed]) _ s
  | setDigit a p v dp => exact norm_setDigit s a p v dp
  | setChar a p v dp => exact norm_setChar s a p v dp

theorem norm_runOps (ops : List Op) (s : LedControl) :
    norm (runOps s ops) = runOps (norm s) ops :=
  norm_foldl Op.run norm_run ops s

theorem norm_initStep (s : LedControl) (i : Nat) :
    norm (s.initStep i) = (norm s).initStep i := by
  simp only [LedControl.initStep, norm_shutdown, norm_clearDisplay, norm_spiTransfer,
    norm_setScanLimit]

theorem norm_constructors (status : List Nat) (dataPin clkPin csPin N : Int) :
    norm (LedControl.initSoftware status dataPin clkPin csPin N) =
      norm (LedControl.initHardware status csPin N) := by
  simp only [LedControl.initSoftware, LedControl.initHardware, norm_foldl _ norm_initStep]
  rfl

theorem constructors_together (p : Platform) (dataPin clkPin csPin numDevices : Int) :
    ∃ r : Option (List Nat × Int),
      LedControl.newSoftware p dataPin clkPin csPin numDevices =
        r.map (fun a => LedControl.initSoftware a.1 dataPin clkPin csPin a.2) ∧
      LedControl.newHardware p csPin numDevices =
        r.map (fun a => LedControl.initHardware a.1 csPin a.2) := by
  refine ⟨(p.allocZeroed (p.wrap ((if numDevices < 1 then 1 else numDevices) * 8))).map
    (fun st => (st, if numDevices < 1 then 1 else numDevices)), ?_, ?_⟩
  · simp only [LedControl.newSoftware, Option.map_map]
    rfl
  · simp only [LedControl.newHardware, Option.map_map]
    rfl

theorem wireBytes_canon (es : List BusEvent) : wireBytes (canon es) = wireBytes es := by
  induction es with
  | nil => rfl
  | cons e es ih => cases e <;> simp [canon, wireBytes, ih]

theorem norm_backends (status : List Nat) (dataPin clkPin csPin N : Int) (ops : List Op) :
    norm (runOps (LedControl.initSoftware status dataPin clkPin csPin N) ops) =
      norm (runOps (LedControl.initHardware status csPin N) ops) := by
  rw [norm_runOps, norm_runOps, norm_constructors]

theorem config_store (s : LedControl) (i : Int) (v : Nat) : config (s.store i v) = config s := by
  unfold LedControl.store
  split <;> rfl

theorem config_touch (s : LedControl) (i : Int) : config (s.touch i) = config s := by
  unfold LedControl.touch
  split <;> rfl

theorem config_touchTable (s : LedControl) (i : Nat) : config (s.touchTable i) = config s := by
  unfold LedControl.touchTable
  split <;> rfl

theorem config_spiTransfer (s : LedControl) (t : Int) (op x : Nat) :
    config (s.spiTransfer t op x) = config s := by
  by_cases ht : 0 ≤ t ∧ t < s.maxDevices
  · rw [spiTransfer_eq s t op x ht]
    rfl
  · rw [spiTransfer_out s t op x ht]

theorem config_setLed (s : LedControl) (a r c : Int) (b : Bool) :
    config (s.setLed a r c b) = config s := by
  simp only [LedControl.setLed]
  split_ifs <;> simp only [config_spiTransfer, config_touch, config_store]

theorem config_clearDisplay (s : LedControl) (a : Int) :
    config (s.clearDisplay a) = config s := by
  simp only [LedControl.clearDisplay]
  split_ifs
  · rfl
  · exact foldl_keeps (fun s1 => config s1 = config s) _ _ s rfl (fun s1 i _ h1 => by
      rw [← h1]
      simp only [LedControl.clearRow, config_spiTransfer, config_touch, config_store])

theorem config_control (s : LedControl) (a x : Int) (b : Bool) :
    config (s.shutdown a b) = config s ∧ config (s.setScanLimit a x) = config s ∧
    config (s.setIntensity a x) = config s := by
  refine ⟨?_, ?_, ?_⟩
  · simp only [LedControl.shutdown]
    split_ifs <;> simp only [config_spiTransfer]
  · simp only [LedControl.setScanLimit]
    split_ifs <;> simp only [config_spiTransfer]
  · simp only [LedControl.setIntensity]
    split_ifs <;> simp only [config_spiTransfer]

theorem config_run (s : LedControl) (op : Op) : config (op.run s) = config s := by
  cases op with
  | begin i =>
    exact foldl_keeps (fun s1 => config s1 = config s) _ _ s rfl (fun s1 a _ h1 => by
      rw [← h1]
      simp only [LedControl.beginStep, config_clearDisplay,
        (config_control _ a i false).2.2, (config_control _ a i false).1])
  | shutdown a b => exact (config_control s a 0 b).1
  | setScanLimit a l => exact (config_control s a l true).2.1
  | setIntensity a i => exact (config_control s a i true).2.2
  | clearDisplay a => exact config_clearDisplay s a
  | clear =>
    exact foldl_keeps (fun s1 => config s1 = config s) _ _ s rfl (fun s1 a _ h1 => by
      rw [← h1]
      exact config_clearDisplay s1 a)
  | setLed a r c b => exact config_setLed s a r c b
  | drawPixel x y c =>
    simp only [Op.run, LedControl.drawPixel]
    split_ifs
    · rfl
    · exact config_setLed s 0 y x _
  | setRow a r v =>
    simp only [Op.run, LedControl.setRow]
    split_ifs <;> simp only [config_spiTransfer, config_touch, config_store]
  | setColumn a c v =>
    simp only [Op.run, LedControl.setColumn]
    split_ifs
    · rfl
    · rfl
    · exact foldl_keeps (fun s1 => config s1 = config s) _ _ s rfl (fun s1 row _ h1 => by
        rw [← h1]
        exact config_setLed s1 a row c _)
  | setDigit a p v dp =>
    simp only [Op.run, LedControl.setDigit]
    split_ifs <;> simp only [config_spiTransfer, config_touchTable, config_store]
  | setChar a p v dp =>
    simp only [Op.run, LedControl.setChar]
    split_ifs <;> simp only [config_spiTransfer, config_touchTable, config_store]

theorem config_runOps (ops : List Op) (s : LedControl) : config (runOps s ops) = config s :=
  foldl_keeps (fun s1 => config s1 = config s) Op.run ops s rfl
    (fun s1 op _ h1 => by rw [← h1]; exact config_run s1 op)

end Backends

/-! ## Every call appends whole transactions -/

section Log

theorem transaction_config (a s : LedControl) (h : config a = config s) (t : Int) (op x : Nat) :
    transaction a t op x = transaction s t op x := by
  simp only [config, Prod.mk.injEq] at h
  obtain ⟨h1, h2, h3, h4, h5⟩ := h
  simp only [transaction, wireEvent, h1, h2, h3, h4, h5]

theorem txEvents_config (a s : LedControl) (h : config a = config s)
    (L : List (Int × Nat × Nat)) : txEvents a L = txEvents s L := by
  simp only [txEvents, transaction_config a s h]

theorem logged_refl (s : LedControl) : Logged s s :=
  ⟨rfl, rfl, id, [], by simp [txEvents]⟩

theorem logged_store (s a : LedControl) (h : Logged s a) (i : Int) (v : Nat) :
    Logged s (a.store i v) := by
  obtain ⟨hc, hl, ho, L, hb⟩ := h
  unfold LedControl.store
  split
  · exact ⟨hc, by simpa using hl, ho, L, hb⟩
  · exact ⟨hc, hl, fun _ => rfl, L, hb⟩

theorem logged_touch (s a : LedControl) (h : Logged s a) (i : Int) : Logged s (a.touch i) := by
  obtain ⟨hc, hl, ho, L, hb⟩ := h
  unfold LedControl.touch
  split
  · exact ⟨hc, hl, ho, L, hb⟩
  · exact ⟨hc, hl, fun _ => rfl, L, hb⟩

theorem logged_touchTable (s a : LedControl) (h : Logged s a) (i : Nat) :
    Logged s (a.touchTable i) := by
  obtain ⟨hc, hl, ho, L, hb⟩ := h
  unfold LedControl.touchTable
  split
  · exact ⟨hc, hl, ho, L, hb⟩
  · exact ⟨hc, hl, fun _ => rfl, L, hb⟩

theorem logged_spiTransfer (s a : LedControl) (h : Logged s a) (t : Int) (op x : Nat) :
    Logged s (a.spiTransfer t op x) := by
  by_cases ht : 0 ≤ t ∧ t < a.maxDevices
  · rw [spiTransfer_eq a t op x ht]
    obtain ⟨hc, hl, ho, L, hb⟩ := h
    refine ⟨hc, hl, ho, L ++ [(t, op, x)], ?_⟩
    simp only [LedControl.withEvents, hb, txEvents, List.flatMap_append, List.flatMap_cons,
      List.flatMap_nil, List.append_nil, List.append_assoc, transaction_config a s hc]
  · rw [spiTransfer_out a t op x ht]
    exact h

theorem logged_shutdown (s a : LedControl) (h : Logged s a) (d : Int) (b : Bool) :
    Logged s (a.shutdown d b) := by
  simp only [LedControl.shutdown]
  split
  · exact h
  · exact logged_spiTransfer s a h _ _ _

theorem logged_setScanLimit (s a : LedControl) (h : Logged s a) (d l : Int) :
    Logged s (a.setScanLimit d l) := by
  simp only [LedControl.setScanLimit]
  split_ifs
  · exact h
  · exact logged_spiTransfer s a h _ _ _
  · exact h

theorem logged_setIntensity (s a : LedControl) (h : Logged s a) (d l : Int) :
    Logged s (a.setIntensity d l) := by
  simp only [LedControl.setIntensity]
  split_ifs
  · exact h
  · exact logged_spiTransfer s a h _ _ _
  · exact h

theorem logged_clearRow (s a : LedControl) (h : Logged s a) (d offset : Int) (i : Nat) :
    Logged s (LedControl.clearRow d offset a i) := by
  simp only [LedControl.clearRow]
  exact logged_spiTransfer s _ (logged_touch s _ (logged_store s a h _ _) _) _ _ _

theorem logged_clearDisplay (s a : LedControl) (h : Logged s a) (d : Int) :
    Logged s (a.clearDisplay d) := by
  simp only [LedControl.clearDisplay]
  split
  · exact h
  · exact foldl_keeps (Logged s) _ _ a h (fun s1 i _ h1 => logged_clearRow s s1 h1 d (d * 8) i)

theorem logged_setLed (s a : LedControl) (h : Logged s a) (d r c : Int) (b : Bool) :
    Logged s (a.setLed d r c b) := by
  simp only [LedControl.setLed]
  split_ifs
  · exact h
  · exact h
  · exact logged_spiTransfer s _ (logged_touch s _ (logged_store s _ (logged_touch s a h _) _ _) _)
      _ _ _
  · exact logged_spiTransfer s _ (logged_touch s _ (logged_store s _ (logged_touch s a h _) _ _) _)
      _ _ _

theorem logged_setRow (s a : LedControl) (h : Logged s a) (d r : Int) (v : Nat) :
    Logged s (a.setRow d r v) := by
  simp only [LedControl.setRow]
  split_ifs
  · exact h
  · exact h
  · exact logged_spiTransfer s _ (logged_touch s _ (logged_store s a h _ _) _) _ _ _

theorem logged_setDigit (s a : LedControl) (h : Logged s a) (d p : Int) (v : Nat) (dp : Bool) :
    Logged s (a.setDigit d p v dp) := by
  simp only [LedControl.setDigit]
  split_ifs <;>
    first
    | exact h
    | exact logged_spiTransfer s _ (logged_store s _ (logged_touchTable s a h _) _ _) _ _ _

theorem logged_setChar (s a : LedControl) (h : Logged s a) (d p code : Int) (dp : Bool) :
    Logged s (a.setChar d p code dp) := by
  simp only [LedControl.setChar]
  split_ifs <;>
    first
    | exact h
    | exact logged_spiTransfer s _ (logged_store s _ (logged_touchTable s a h _) _ _) _ _ _

theorem logged_run (s a : LedControl) (h : Logged s a) (op : Op) : Logged s (op.run a) := by
  cases op with
  | begin i =>
    exact foldl_keeps (Logged s) _ _ a h (fun s1 d _ h1 =>
      logged_clearDisplay s _ (logged_setIntensity s _ (logged_shutdown s s1 h1 d false) d i) d)
  | shutdown d b => exact logged_shutdown s a h d b
  | setScanLimit d l => exact logged_setScanLimit s a h d l
  | setIntensity d i => exact logged_setIntensity s a h d i
  | clearDisplay d => exact logged_clearDisplay s a h d
  | clear =>
    show Logged s a.clear
    rw [clear_eq_foldl]
    exact foldl_keeps (Logged s) _ _ a h (fun s1 d _ h1 => logged_clearDisplay s s1 h1 d)
  | setLed d r c b => exact logged_setLed s a h d r c b
  | drawPixel x y c =>
    simp only [Op.run, LedControl.drawPixel]
    split_ifs
    · exact h
    · exact logged_setLed s a h 0 y x _
  | setRow d r v => exact logged_setRow s a h d r v
  | setColumn d c v =>
    simp only [Op.run, LedControl.setColumn]
    split_ifs
    · exact h
    · exact h
    · exact foldl_keeps (Logged s) _ _ a h (fun s1 row _ h1 => logged_setLed s s1 h1 d row c _)
  | setDigit d p v dp => exact logged_setDigit s a h d p v dp
  | setChar d p v dp => exact logged_setChar s a h d p v dp

theorem logged_runOps (s a : LedControl) (h : Logged s a) (ops : List Op) :
    Logged s (runOps a ops) :=
  foldl_keeps (Logged s) Op.run ops a h (fun s1 op _ h1 => logged_run s s1 h1 op)

theorem logged_initStep (s a : LedControl) (h : Logged s a) (i : Nat) :
    Logged s (a.initStep i) := by
  simp only [LedControl.initStep]
  exact logged_shutdown s _ (logged_clearDisplay s _ (logged_spiTransfer s _
    (logged_setScanLimit s _ (logged_spiTransfer s a h _ _ _) _ _) _ _ _) _) _ _

theorem logged_initLoop (s a : LedControl) (h : Logged s a) (l : List Nat) :
    Logged s (l.foldl LedControl.initStep a) :=
  foldl_keeps (Logged s) _ l a h (fun s1 i _ h1 => logged_initStep s s1 h1 i)

end Log

/-! ## A buffer size that wrapped to zero -/

section Overflow

theorem store_empty_oob (a : LedControl) (h : a.status.length = 0) (i : Int) (v : Nat) :
    (a.store i v).oob = true := by
  have hn : ¬ (0 ≤ i ∧ i < (a.status.length : Int)) := by
    rw [h]
    omega
  simp only [LedControl.store, if_neg hn]

theorem clearRow_empty_oob (a : LedControl) (h : a.status.length = 0) (d offset : Int)
    (i : Nat) : (LedControl.clearRow d offset a i).oob = true := by
  simp only [LedControl.clearRow]
  exact (logged_spiTransfer _ _ (logged_touch _ _ (logged_refl (a.store (offset + i) 0)) _)
    _ _ _).2.2.1 (store_empty_oob a h _ _)

theorem clearDisplay_empty_oob (a : LedControl) (h : a.status.length = 0) (d : Int)
    (hd : 0 ≤ d ∧ d < a.maxDevices) : (a.clearDisplay d).oob = true := by
  have h1 : ¬ (d < 0 ∨ d ≥ a.maxDevices) := by omega
  have hr : List.range 8 = 0 :: [1, 2, 3, 4, 5, 6, 7] := rfl
  simp only [LedControl.clearDisplay, if_neg h1]
  rw [hr, List.foldl_cons]
  exact (foldl_keeps (Logged (LedControl.clearRow d (d * 8) a 0)) _ _ _ (logged_refl _)
    (fun s1 i _ h2 => logged_clearRow _ s1 h2 d (d * 8) i)).2.2.1
    (clearRow_empty_oob a h d (d * 8) 0)

theorem clearShutdown_empty_oob (a c : LedControl) (hc : Logged a c)
    (h : a.status.length = 0) (i : Nat) (hi : (i : Int) < a.maxDevices) :
    ((c.clearDisplay i).shutdown i true).oob = true := by
  have hm : c.maxDevices = a.maxDevices :=
    congrArg (fun x : Int × Int × Int × Int × Bool => x.2.2.2.1) hc.1
  exact (logged_shutdown _ _ (logged_refl _) _ _).2.2.1
    (clearDisplay_empty_oob c (hc.2.1.trans h) i ⟨by omega, by rw [hm]; exact hi⟩)

theorem initStep_empty_oob (a : LedControl) (h : a.status.length = 0) (i : Nat)
    (hi : (i : Int) < a.maxDevices) : (a.initStep i).oob = true := by
  simp only [LedControl.initStep]
  exact clearShutdown_empty_oob a _
    (logged_spiTransfer a _ (logged_setScanLimit a _
      (logged_spiTransfer a a (logged_refl a) _ _ _) _ _) _ _ _) h i hi

theorem initLoop_empty (s0 : LedControl) (h : s0.status.length = 0) (hN : 1 ≤ s0.maxDevices) :
    ((List.range s0.maxDevices.toNat).foldl LedControl.initStep s0).oob = true ∧
    ((List.range s0.maxDevices.toNat).foldl LedControl.initStep s0).status.length = 0 ∧
    ((List.range s0.maxDevices.toNat).foldl LedControl.initStep s0).maxDevices =
      s0.maxDevices := by
  have hl := logged_initLoop s0 s0 (logged_refl s0) (List.range s0.maxDevices.toNat)
  refine ⟨?_, hl.2.1.trans h,
    congrArg (fun x : Int × Int × Int × Int × Bool => x.2.2.2.1) hl.1⟩
  obtain ⟨n, hn⟩ : ∃ n, s0.maxDevices.toNat = n + 1 := ⟨s0.maxDevices.toNat - 1, by omega⟩
  rw [hn, List.range_succ_eq_map, List.foldl_cons]
  exact (logged_initLoop _ _ (logged_refl _) _).2.2.1
    (initStep_empty_oob s0 h 0 (by omega))

theorem initSoftware_empty (dataPin clkPin csPin N : Int) (hN : 1 ≤ N) :
    (LedControl.initSoftware [] dataPin clkPin csPin N).oob = true ∧
    (LedControl.initSoftware [] dataPin clkPin csPin N).status.length = 0 ∧
    (LedControl.initSoftware [] dataPin clkPin csPin N).maxDevices = N :=
  initLoop_empty
    { SPI_MOSI := dataPin, SPI_CLK := clkPin, SPI_CS := csPin,
      maxDevices := N, hardwareSPI := false, status := [],
      bus := [.pinMode dataPin, .pinMode clkPin, .pinMode csPin, .digitalWrite csPin true],
      oob := false } rfl hN

theorem initHardware_empty (csPin N : Int) (hN : 1 ≤ N) :
    (LedControl.initHardware [] csPin N).oob = true ∧
    (LedControl.initHardware [] csPin N).status.length = 0 ∧
    (LedControl.initHardware [] csPin N).maxDevices = N :=
  initLoop_empty
    { SPI_MOSI := 0, SPI_CLK := 0, SPI_CS := csPin,
      maxDevices := N, hardwareSPI := true, status := [],
      bus := [.pinMode csPin, .digitalWrite csPin true, .spiBegin],
      oob := false } rfl hN

theorem avr_wrapped_software :
    LedControl.newSoftware avr 11 13 10 8192 =
      some (LedControl.initSoftware [] 11 13 10 8192) := by
  rfl

theorem avr_wrapped_hardware :
    LedControl.newHardware avr 10 8192 = some (LedControl.initHardware [] 10 8192) := by
  rfl

theorem arm32_wrapped_software :
    LedControl.newSoftware arm32 11 13 10 536870912 =
      some (LedControl.initSoftware [] 11 13 10 536870912) := by
  rfl

end Overflow

/-! ## One log of transactions for both backends -/

section BackendLog

theorem repin_append (m c : Int) (xs ys : List BusEvent) :
    repin m c (xs ++ ys) = repin m c xs ++ repin m c ys := by
  induction xs with
  | nil => rfl
  | cons e es ih => cases e <;> simp [repin, ih]

theorem repin_frames (s : LedControl) (h : s.hardwareSPI = false) (fs : List (Nat × Nat)) :
    repin s.SPI_MOSI s.SPI_CLK
        (fs.flatMap (fun f => [wireEvent (norm s) f.1, wireEvent (norm s) f.2])) =
      fs.flatMap (fun f => [wireEvent s f.1, wireEvent s f.2]) := by
  induction fs with
  | nil => rfl
  | cons f fs ih =>
    simp only [List.flatMap_cons, repin_append, ih]
    congr 1
    simp [wireEvent, h, norm, repin]

theorem repin_transaction (s : LedControl) (h : s.hardwareSPI = false) (t : Int) (op x : Nat) :
    repin s.SPI_MOSI s.SPI_CLK (transaction (norm s) t op x) = transaction s t op x := by
  unfold transaction
  simp only [repin_append, repin_frames s h, norm_maxDevices]
  simp [h, norm, repin]

theorem repin_txEvents (s : LedControl) (h : s.hardwareSPI = false)
    (L : List (Int × Nat × Nat)) :
    repin s.SPI_MOSI s.SPI_CLK (txEvents (norm s) L) = txEvents s L := by
  induction L with
  | nil => rfl
  | cons t L ih =>
    simp only [txEvents, List.flatMap_cons, repin_append] at ih ⊢
    rw [ih, repin_transaction s h]

theorem canon_txEvents (s : LedControl) (L : List (Int × Nat × Nat)) :
    canon (txEvents s L) = txEvents (norm s) L := by
  induction L with
  | nil => rfl
  | cons t L ih =>
    simp only [txEvents, List.flatMap_cons, canon_append] at ih ⊢
    rw [ih, canon_transaction]

theorem backends_log (status : List Nat) (dataPin clkPin csPin N : Int) (ops : List Op) :
    ∃ L : List (Int × Nat × Nat),
      (runOps (LedControl.initSoftware status dataPin clkPin csPin N) ops).bus =
        [BusEvent.pinMode dataPin, BusEvent.pinMode clkPin, BusEvent.pinMode csPin,
          BusEvent.digitalWrite csPin true] ++
        txEvents (runOps (LedControl.initSoftware status dataPin clkPin csPin N) ops) L ∧
      (runOps (LedControl.initHardware status csPin N) ops).bus =
        [BusEvent.pinMode csPin, BusEvent.digitalWrite csPin true, BusEvent.spiBegin] ++
        txEvents (runOps (LedControl.initHardware status csPin N) ops) L := by
  let sw0 : LedControl :=
    { SPI_MOSI := dataPin, SPI_CLK := clkPin, SPI_CS := csPin,
      maxDevices := N, hardwareSPI := false, status := status,
      bus := [.pinMode dataPin, .pinMode clkPin, .pinMode csPin, .digitalWrite csPin true],
      oob := false }
  let hw0 : LedControl :=
    { SPI_MOSI := 0, SPI_CLK := 0, SPI_CS := csPin,
      maxDevices := N, hardwareSPI := true, status := status,
      bus := [.pinMode csPin, .digitalWrite csPin true, .spiBegin],
      oob := false }
  have hs : Logged sw0 (runOps (LedControl.initSoftware status dataPin clkPin csPin N) ops) :=
    logged_runOps sw0 _ (logged_initLoop sw0 sw0 (logged_refl sw0) _) ops
  have hh : Logged hw0 (runOps (LedControl.initHardware status csPin N) ops) :=
    logged_runOps hw0 _ (logged_initLoop hw0 hw0 (logged_refl hw0) _) ops
  obtain ⟨hcs, _, _, Ls, hbs⟩ := hs
  obtain ⟨hch, _, _, Lh, hbh⟩ := hh
  have hbus : canon (runOps (LedControl.initSoftware status dataPin clkPin csPin N) ops).bus =
      canon (runOps (LedControl.initHardware status csPin N) ops).bus :=
    congrArg LedControl.bus (norm_backends status dataPin clkPin csPin N ops)
  rw [hbs, hbh, canon_append, canon_append, canon_txEvents, canon_txEvents] at hbus
  have hpre : canon sw0.bus = canon hw0.bus := rfl
  rw [hpre] at hbus
  have hn : txEvents (norm sw0) Ls = txEvents (norm sw0) Lh := by
    rw [List.append_cancel_left hbus]
    exact txEvents_config (norm hw0) (norm sw0) rfl Lh
  have key : txEvents sw0 Ls = txEvents sw0 Lh := by
    rw [← repin_txEvents sw0 rfl Ls, ← repin_txEvents sw0 rfl Lh, hn]
  refine ⟨Lh, ?_, ?_⟩
  · rw [txEvents_config _ sw0 hcs, ← key]
    exact hbs
  · rw [txEvents_config _ hw0 hch]
    exact hbh

theorem built_together (p : Platform) (dataPin clkPin csPin numDevices : Int)
    (sw hw : LedControl)
    (hsw : LedControl.newSoftware p dataPin clkPin csPin numDevices = some sw)
    (hhw : LedControl.newHardware p csPin numDevices = some hw) :
    ∃ (status : List Nat) (N : Int),
      sw = LedControl.initSoftware status dataPin clkPin csPin N ∧
      hw = LedControl.initHardware status csPin N := by
  obtain ⟨r, h1, h2⟩ := constructors_together p dataPin clkPin csPin numDevices
  rw [h1] at hsw
  rw [h2] at hhw
  cases r with
  | none => simp at hsw
  | some a =>
    simp only [Option.map_some', Option.some.injEq] at hsw hhw
    exact ⟨a.1, a.2, hsw.symm, hhw.symm⟩

theorem config_initSoftware (status : List Nat) (dataPin clkPin csPin N : Int) :
    config (LedControl.initSoftware status dataPin clkPin csPin N) =
      (dataPin, clkPin, csPin, N, false) :=
  (logged_initLoop _ _ (logged_refl _) _).1

theorem config_initHardware (status : List Nat) (csPin N : Int) :
    config (LedControl.initHardware status csPin N) = (0, 0, csPin, N, true) :=
  (logged_initLoop _ _ (logged_refl _) _).1

theorem maxDevices_initSoftware (status : List Nat) (dataPin clkPin csPin N : Int) :
    (LedControl.initSoftware status dataPin clkPin csPin N).maxDevices = N :=
  congrArg (fun c : Int × Int × Int × Int × Bool => c.2.2.2.1)
    (config_initSoftware status dataPin clkPin csPin N)

end BackendLog

/-! # The specification's claims -/

/-- C1: for a target index inside the chain, `spiTransfer` appends to the trace
exactly one transaction: chip-select low, then only wire bytes forming `N`
two-byte frames, then chip-select high (bracketed by begin/endTransaction in
block-transfer mode and by nothing otherwise); the frame at emission position
`N - 1 - i` belongs to device `i`, so devices are served from `N - 1` down to
`0`, the target receiving `(opcode, data)` and every other device `(NOOP, 0)`.
For a target outside the chain the state, and so the trace, is unchanged. -/
theorem spiTransfer_emits_chain (s : LedControl) (t : Int) (opcode data : Nat) :
    (0 ≤ t ∧ t < s.maxDevices →
      s.spiTransfer t opcode data = s.withEvents (transaction s t opcode data) ∧
      (∃ body : List BusEvent,
        transaction s t opcode data =
          (if s.hardwareSPI then [BusEvent.beginTransaction] else []) ++
          [BusEvent.digitalWrite s.SPI_CS false] ++ body ++
          [BusEvent.digitalWrite s.SPI_CS true] ++
          (if s.hardwareSPI then [BusEvent.endTransaction] else []) ∧
        (∀ e ∈ body, ∃ b, e = wireEvent s b) ∧
        frames (wireBytes body) = expectedFrames s.maxDevices.toNat t opcode data) ∧
      frames (wireBytes (newEvents s (s.spiTransfer t opcode data))) =
        expectedFrames s.maxDevices.toNat t opcode data ∧
      (expectedFrames s.maxDevices.toNat t opcode data).length = s.maxDevices.toNat ∧
      (∀ i : Nat, (i : Int) < s.maxDevices →
        (expectedFrames s.maxDevices.toNat t opcode data)[s.maxDevices.toNat - 1 - i]? =
          some (if (i : Int) = t then (opcode, data) else (OP_NOOP, 0)))) ∧
    (¬ (0 ≤ t ∧ t < s.maxDevices) → s.spiTransfer t opcode data = s) := by
  refine ⟨fun h => ⟨spiTransfer_eq s t opcode data h, ?_, ?_, ?_, ?_⟩,
    spiTransfer_out s t opcode data⟩
  · refine ⟨_, rfl, ?_, frames_wireBytes_flatMap s _⟩
    intro e he
    simp only [List.mem_flatMap] at he
    obtain ⟨f, _, hf⟩ := he
    simp only [List.mem_cons, List.mem_singleton, List.not_mem_nil, or_false] at hf
    rcases hf with hf | hf
    · exact ⟨_, hf⟩
    · exact ⟨_, hf⟩
  · rw [spiTransfer_eq s t opcode data h, newEvents_withEvents, wireBytes_transaction,
      frames_wireBytes_flatMap]
  · simp [expectedFrames]
  · intro i hi
    exact expectedFrames_device _ t opcode data i (by omega)

/-- Witness for C1 on the four-device chain: target 1, SHUTDOWN := 1. -/
theorem spiTransfer_emits_chain_witness :
    ((0 : Int) ≤ 1 ∧ (1 : Int) < chain4.maxDevices) ∧
    frames (wireBytes (newEvents chain4 (chain4.spiTransfer 1 12 1))) =
      expectedFrames 4 1 12 1 :=
  ⟨by decide, ((spiTransfer_emits_chain chain4 1 12 1).1 (by decide)).2.2.1⟩

/-- C2 as stated fails: on a four-device chain `spiTransfer(1, 12, 1)` emits the
command as the third frame, not the second. -/
theorem spiTransfer_four_second_frame_counterexample :
    frames (wireBytes (newEvents chain4 (chain4.spiTransfer 1 12 1))) =
      [(0, 0), (0, 0), (12, 1), (0, 0)] ∧
    frames (wireBytes (newEvents chain4 (chain4.spiTransfer 1 12 1))) ≠
      [(0, 0), (12, 1), (0, 0), (0, 0)] := by
  decide

/-- C2 (amended): on a chain of four devices `spiTransfer(1, OP, V)` records
exactly four frames, in emission order `[(NOOP,0), (NOOP,0), (OP,V), (NOOP,0)]`:
devices 3 and 2 get a no-op, device 1 the command, device 0 a no-op. -/
theorem spiTransfer_four_frames (s : LedControl) (op v : Nat) (hN : s.maxDevices = 4) :
    frames (wireBytes (newEvents s (s.spiTransfer 1 op v))) =
      [(OP_NOOP, 0), (OP_NOOP, 0), (op, v), (OP_NOOP, 0)] := by
  rw [spiTransfer_eq s 1 op v (by omega), newEvents_withEvents, wireBytes_transaction,
    frames_wireBytes_flatMap, hN]
  simp [expectedFrames, List.range_succ]

/-- Witness for the amended C2 on the four-device chain. -/
theorem spiTransfer_four_frames_witness :
    chain4.maxDevices = 4 ∧
    frames (wireBytes (newEvents chain4 (chain4.spiTransfer 1 12 1))) =
      [(OP_NOOP, 0), (OP_NOOP, 0), (12, 1), (OP_NOOP, 0)] :=
  ⟨rfl, spiTransfer_four_frames chain4 12 1 rfl⟩

/-- C4: for an addressed row inside the chain and a byte `v`, after
`setRow(d, r, v)` the shadow byte at `(d, r)` is `v`, every other shadow byte is
unchanged, and the call is exactly one `spiTransfer(d, r+1, v)` on the updated
buffer, appending that single transaction (row 0 uses opcode 1, row 7 opcode 8);
and the byte at `(d, r)` is still `v` after any further sequence of calls none
of which addresses row `r` of device `d`. -/
theorem setRow_round_trip (s : LedControl) (hs : s.WF) (d r : Int)
    (hd : 0 ≤ d ∧ d < s.maxDevices) (hr : 0 ≤ r ∧ r ≤ 7) (v : Nat) (hv : v < 256) :
    (s.setRow d r v).rowByte d r = v ∧
    (s.setRow d r v).status = s.status.set (rowIndex d r) v ∧
    (∀ i : Nat, i ≠ rowIndex d r → (s.setRow d r v).status.getD i 0 = s.status.getD i 0) ∧
    newEvents s (s.setRow d r v) = transaction s d (r + 1).toNat v ∧
    (1 ≤ (r + 1).toNat ∧ (r + 1).toNat ≤ 8 ∧ ((r + 1).toNat : Int) = r + 1) ∧
    s.setRow d r v =
      ({ s with status := s.status.set (rowIndex d r) v }).spiTransfer d (r + 1).toNat v ∧
    (∀ ops : List Op, (∀ op ∈ ops, ¬ op.addresses d r) →
      (runOps (s.setRow d r v) ops).rowByte d r = v) := by
  have he : s.setRow d r v = s.rowWrite d r v := by
    rw [setRow_eq s hs d r hd hr, Nat.mod_eq_of_lt hv]
  have hb : (s.setRow d r v).rowByte d r = v := by
    rw [he, rowWrite_rowByte s hs d r hd hr]
  refine ⟨hb, ?_, ?_, ?_, by omega, ?_, ?_⟩
  · rw [he]
    rfl
  · intro i hi
    rw [he]
    exact rowWrite_other s d r v i hi
  · rw [he]
    exact rowWrite_events s d r v
  · rw [he]
    exact rowWrite_spiTransfer s d r v hd
  · intro ops hops
    rw [runOps_keeps ops _ d r hd.1 hr hops, hb]

/-- Witness for C4: row 2 of device 1 of the four-device chain, followed by a
write to another row, a control write and a clear of another device. -/
theorem setRow_round_trip_witness :
    (chain4.setRow 1 2 0xA5).rowByte 1 2 = 0xA5 ∧
    (runOps (chain4.setRow 1 2 0xA5)
      [Op.setRow 1 3 0xFF, Op.setIntensity 1 8, Op.clearDisplay 0]).rowByte 1 2 = 0xA5 :=
  ⟨(setRow_round_trip chain4 (by decide) 1 2 (by decide) (by decide) 0xA5 (by decide)).1,
   (setRow_round_trip chain4 (by decide) 1 2 (by decide) (by decide) 0xA5
      (by decide)).2.2.2.2.2.2 _ (by simp [Op.addresses])⟩

/-- C5: every setter called with a device index outside `[0, N)`, or with a
row, column or digit coordinate outside `[0, 7]`, returns the state it was
given: the shadow buffer is unchanged and nothing is appended to the trace. -/
theorem setters_ignore_bad_address (s : LedControl) :
    (∀ (d r c : Int) (lit : Bool),
      ¬ (0 ≤ d ∧ d < s.maxDevices) ∨ ¬ (0 ≤ r ∧ r ≤ 7) ∨ ¬ (0 ≤ c ∧ c ≤ 7) →
        s.setLed d r c lit = s) ∧
    (∀ (d r : Int) (v : Nat),
      ¬ (0 ≤ d ∧ d < s.maxDevices) ∨ ¬ (0 ≤ r ∧ r ≤ 7) → s.setRow d r v = s) ∧
    (∀ (d c : Int) (v : Nat),
      ¬ (0 ≤ d ∧ d < s.maxDevices) ∨ ¬ (0 ≤ c ∧ c ≤ 7) → s.setColumn d c v = s) ∧
    (∀ (d p : Int) (v : Nat) (dp : Bool),
      ¬ (0 ≤ d ∧ d < s.maxDevices) ∨ ¬ (0 ≤ p ∧ p ≤ 7) → s.setDigit d p v dp = s) ∧
    (∀ (d p code : Int) (dp : Bool),
      ¬ (0 ≤ d ∧ d < s.maxDevices) ∨ ¬ (0 ≤ p ∧ p ≤ 7) → s.setChar d p code dp = s) ∧
    (∀ d : Int, ¬ (0 ≤ d ∧ d < s.maxDevices) → s.clearDisplay d = s) ∧
    (∀ (d : Int) (b : Bool), ¬ (0 ≤ d ∧ d < s.maxDevices) → s.shutdown d b = s) ∧
    (∀ d limit : Int, ¬ (0 ≤ d ∧ d < s.maxDevices) → s.setScanLimit d limit = s) ∧
    (∀ d intensity : Int, ¬ (0 ≤ d ∧ d < s.maxDevices) → s.setIntensity d intensity = s) := by
  refine ⟨?_, ?_, ?_, ?_, ?_, ?_, ?_, ?_, ?_⟩
  · intro d r c lit h
    simp only [LedControl.setLed]
    split_ifs <;> first | rfl | omega
  · intro d r v h
    simp only [LedControl.setRow]
    split_ifs <;> first | rfl | omega
  · intro d c v h
    simp only [LedControl.setColumn]
    split_ifs <;> first | rfl | omega
  · intro d p v dp h
    simp only [LedControl.setDigit]
    split_ifs <;> first | rfl | omega
  · intro d p code dp h
    simp only [LedControl.setChar]
    split_ifs <;> first | rfl | omega
  · intro d h
    simp only [LedControl.clearDisplay]
    split_ifs <;> first | rfl | omega
  · intro d b h
    simp only [LedControl.shutdown]
    split_ifs <;> first | rfl | omega
  · intro d l h
    simp only [LedControl.setScanLimit]
    split_ifs <;> first | rfl | omega
  · intro d i h
    simp only [LedControl.setIntensity]
    split_ifs <;> first | rfl | omega

/-- Witness for C5: on the four-device chain, device 4 and row 8 are rejected. -/
theorem setters_ignore_bad_address_witness :
    ¬ ((0 : Int) ≤ 4 ∧ (4 : Int) < chain4.maxDevices) ∧ ¬ ((0 : Int) ≤ 8 ∧ (8 : Int) ≤ 7) ∧
    chain4.setRow 4 0 255 = chain4 ∧ chain4.setLed 0 8 0 true = chain4 :=
  ⟨by decide, by decide,
    (setters_ignore_bad_address chain4).2.1 4 0 255 (Or.inl (by decide)),
    (setters_ignore_bad_address chain4).1 0 8 0 true (Or.inr (Or.inl (by decide)))⟩

/-- C6 as stated fails: with row 0 fully lit (byte 255), switching LED (0,0) on
and then off leaves the byte 127, not the 255 it was before the two calls. -/
theorem setLed_on_off_counterexample :
    ((litRow.setLed 0 0 0 true).setLed 0 0 0 false).rowByte 0 0 ≠ litRow.rowByte 0 0 := by
  rw [litRow_on_off.1, litRow_on_off.2]
  decide

/-- C6 (amended): `setLed(d, r, c, true)` followed by `setLed(d, r, c, false)`
leaves the row byte at `(d, r)` equal to its value before the two calls with
bit `7 - c` cleared; it equals the value before the two calls exactly when
that bit was clear, that is when the LED was off, beforehand. -/
theorem setLed_on_off (s : LedControl) (hs : s.WF) (d r c : Int)
    (hd : 0 ≤ d ∧ d < s.maxDevices) (hr : 0 ≤ r ∧ r ≤ 7) (hc : 0 ≤ c ∧ c ≤ 7) :
    ((s.setLed d r c true).setLed d r c false).rowByte d r =
        s.rowByte d r &&& (255 ^^^ (1 <<< (7 - c.toNat))) ∧
    (∀ j : Nat, (((s.setLed d r c true).setLed d r c false).rowByte d r).testBit j =
        if j = 7 - c.toNat then false else (s.rowByte d r).testBit j) ∧
    (((s.setLed d r c true).setLed d r c false).rowByte d r = s.rowByte d r ↔
        (s.rowByte d r).testBit (7 - c.toNat) = false) := by
  have hc7 : c.toNat ≤ 7 := by omega
  have hold := rowByte_lt s hs d r hd hr
  have hs1 : (s.rowWrite d r (ledByte (s.rowByte d r) c.toNat true)).WF :=
    rowWrite_WF s hs d r _ (ledByte_lt _ _ _ hold hc7)
  have key : ((s.setLed d r c true).setLed d r c false).rowByte d r =
      ledByte (s.rowByte d r) c.toNat false := by
    rw [setLed_eq s hs d r c hd hr hc, setLed_eq _ hs1 d r c hd hr hc,
      rowWrite_rowByte _ hs1 d r hd hr, rowWrite_rowByte s hs d r hd hr,
      ledByte_on_off _ _ hold hc7]
  rw [key]
  refine ⟨rfl, ?_, ledByte_off_eq_iff _ _ hold hc7⟩
  intro j
  rw [ledByte_testBit _ _ _ hold hc7]

/-- Witness for the amended C6 on the four-device chain. -/
theorem setLed_on_off_witness :
    ((chain4.setLed 1 2 3 true).setLed 1 2 3 false).rowByte 1 2 =
      chain4.rowByte 1 2 &&& (255 ^^^ (1 <<< (7 - (3 : Int).toNat))) :=
  (setLed_on_off chain4 (by decide) 1 2 3 (by decide) (by decide) (by decide)).1

/-- C7: for an addressed LED inside the chain, `setLed(d, r, c, on)` replaces
the row byte `old` at `(d, r)` by `old OR (1 << (7-c))` when `on` holds and by
`old AND NOT (1 << (7-c))` otherwise, so bit `7 - c` becomes `on` and no other
bit changes; every other shadow byte is unchanged; and the call is exactly one
`spiTransfer(d, r+1, newByte)` on the updated buffer, appending that single
transaction to the trace. -/
theorem setLed_updates_one_bit (s : LedControl) (hs : s.WF) (d r c : Int)
    (hd : 0 ≤ d ∧ d < s.maxDevices) (hr : 0 ≤ r ∧ r ≤ 7) (hc : 0 ≤ c ∧ c ≤ 7)
    (lit : Bool) :
    (s.setLed d r c lit).rowByte d r =
      (if lit then s.rowByte d r ||| (1 <<< (7 - c.toNat))
       else s.rowByte d r &&& (255 ^^^ (1 <<< (7 - c.toNat)))) ∧
    (∀ j : Nat, ((s.setLed d r c lit).rowByte d r).testBit j =
      if j = 7 - c.toNat then lit else (s.rowByte d r).testBit j) ∧
    (s.setLed d r c lit).status =
      s.status.set (rowIndex d r) ((s.setLed d r c lit).rowByte d r) ∧
    (∀ i : Nat, i ≠ rowIndex d r →
      (s.setLed d r c lit).status.getD i 0 = s.status.getD i 0) ∧
    newEvents s (s.setLed d r c lit) =
      transaction s d (r + 1).toNat ((s.setLed d r c lit).rowByte d r) ∧
    s.setLed d r c lit =
      ({ s with status := s.status.set (rowIndex d r) ((s.setLed d r c lit).rowByte d r) }
        ).spiTransfer d (r + 1).toNat ((s.setLed d r c lit).rowByte d r) := by
  have hc7 : c.toNat ≤ 7 := by omega
  have hold := rowByte_lt s hs d r hd hr
  have hb : (s.setLed d r c lit).rowByte d r = ledByte (s.rowByte d r) c.toNat lit := by
    rw [setLed_eq s hs d r c hd hr hc, rowWrite_rowByte s hs d r hd hr]
  rw [hb]
  refine ⟨rfl, fun j => ledByte_testBit _ _ _ hold hc7 j, ?_, ?_, ?_, ?_⟩
  · rw [setLed_eq s hs d r c hd hr hc]
    rfl
  · intro i hi
    rw [setLed_eq s hs d r c hd hr hc]
    exact rowWrite_other s d r _ i hi
  · rw [setLed_eq s hs d r c hd hr hc]
    exact rowWrite_events s d r _
  · rw [setLed_eq s hs d r c hd hr hc]
    exact rowWrite_spiTransfer s d r _ hd

/-- Witness for C7: LED (row 2, column 3) of device 1 on the four-device chain. -/
theorem setLed_updates_one_bit_witness :
    (chain4.setLed 1 2 3 true).rowByte 1 2 =
      chain4.rowByte 1 2 ||| (1 <<< (7 - (3 : Int).toNat)) :=
  (setLed_updates_one_bit chain4 (by decide) 1 2 3 (by decide) (by decide) (by decide)
    true).1

/-- C8: for an addressed column inside the chain and a byte `v`,
`setColumn(d, c, v)` is exactly the eight calls `setLed(d, r, c, bit (7-r) of v)`
for `r = 0 .. 7` in that order, and so appends exactly eight transactions, the
`r`-th one writing row `r` of device `d`; afterwards bit `7 - c` of every row
byte of device `d` equals bit `7 - r` of `v` and every other bit of those rows
is as before, and every byte outside those eight rows, in particular every
byte of every other device, is unchanged.  With `c = 3` and `v = 0b10100000` on
a device whose rows are all zero, exactly rows 0 and 2 get column 3 set. -/
theorem setColumn_eight_leds (s : LedControl) (hs : s.WF) (d c : Int)
    (hd : 0 ≤ d ∧ d < s.maxDevices) (hc : 0 ≤ c ∧ c ≤ 7) (v : Nat) (hv : v < 256) :
    s.setColumn d c v =
      (List.range 8).foldl (fun s1 r => s1.setLed d r c (v.testBit (7 - r))) s ∧
    newEvents s (s.setColumn d c v) =
      (List.range 8).flatMap
        (fun r => transaction s d (r + 1) ((s.setColumn d c v).rowByte d r)) ∧
    (∀ r : Nat, r < 8 → ∀ j : Nat,
      ((s.setColumn d c v).rowByte d r).testBit j =
        if j = 7 - c.toNat then v.testBit (7 - r) else (s.rowByte d r).testBit j) ∧
    (∀ i : Nat, (∀ r : Nat, r < 8 → i ≠ rowIndex d r) →
      (s.setColumn d c v).status.getD i 0 = s.status.getD i 0) ∧
    (∀ d1 r1 : Int, d1 ≠ d → 0 ≤ d1 → 0 ≤ r1 ∧ r1 ≤ 7 →
      (s.setColumn d c v).rowByte d1 r1 = s.rowByte d1 r1) ∧
    (s.setColumn d c v).status.length = s.status.length ∧
    (c = 3 → v = 0b10100000 → (∀ r : Nat, r < 8 → s.rowByte d r = 0) →
      ∀ r : Nat, r < 8 →
        (s.setColumn d c v).rowByte d r = if r = 0 ∨ r = 2 then 0b00010000 else 0) := by
  have hc7 : c.toNat ≤ 7 := by omega
  obtain ⟨st, e, hlen, _, hrows, hothers⟩ := setColumn_closed s hs d c hd hc v hv
  have hrow : ∀ r : Nat, r < 8 → (s.setColumn d c v).rowByte d r =
      ledByte (s.rowByte d r) c.toNat (v.testBit (7 - r)) := by
    intro r hr
    rw [e]
    exact hrows r hr
  refine ⟨setColumn_as_setLed s d c v hv hd hc, ?_, ?_, ?_, ?_, ?_, ?_⟩
  · have hev : newEvents s (s.setColumn d c v) =
        (List.range 8).flatMap (fun r =>
          transaction s d (r + 1) (ledByte (s.rowByte d r) c.toNat (v.testBit (7 - r)))) := by
      rw [e]
      simp [newEvents, LedControl.update]
    rw [hev]
    apply List.flatMap_congr
    intro r hr
    rw [hrow r (List.mem_range.mp hr)]
  · intro r hr j
    rw [hrow r hr]
    exact ledByte_testBit _ _ _ (rowByte_lt s hs d r hd (by omega)) hc7 j
  · intro i hi
    rw [e]
    exact hothers i hi
  · intro d1 r1 hne h0 hr1
    exact setColumn_keeps s d c v d1 r1 h0 hr1 (fun h => hne h.symm)
  · rw [e]
    exact hlen
  · intro h3 hv2 hz r hr
    rw [hrow r hr, hz r hr, h3, hv2]
    exact column_example r hr

/-- Witness for C8: column 3 of device 1 of the blank four-device chain, with
`v = 0b10100000`. -/
theorem setColumn_eight_leds_witness :
    (chain4.setColumn 1 3 0b10100000).rowByte 1 (0 : Nat) = 0b00010000 ∧
    (chain4.setColumn 1 3 0b10100000).rowByte 1 (1 : Nat) = 0 ∧
    (chain4.setColumn 1 3 0b10100000).rowByte 1 (2 : Nat) = 0b00010000 :=
  ⟨(setColumn_eight_leds chain4 (by decide) 1 3 (by decide) (by decide) 0b10100000
      (by decide)).2.2.2.2.2.2 rfl rfl (by decide) 0 (by decide),
   (setColumn_eight_leds chain4 (by decide) 1 3 (by decide) (by decide) 0b10100000
      (by decide)).2.2.2.2.2.2 rfl rfl (by decide) 1 (by decide),
   (setColumn_eight_leds chain4 (by decide) 1 3 (by decide) (by decide) 0b10100000
      (by decide)).2.2.2.2.2.2 rfl rfl (by decide) 2 (by decide)⟩

/-- C9: for an addressed position inside the chain and a value in `[0, 15]`,
`setDigit(d, p, value, dp)` sets the shadow byte at `(d, p)` to
`charTable[value]` with bit 7 set in addition exactly when `dp` holds (the
first sixteen table entries being the listed hexadecimal patterns), leaves
every other shadow byte unchanged, and is exactly one
`spiTransfer(d, p+1, thatByte)` on the updated buffer. -/
theorem setDigit_writes_glyph (s : LedControl) (hs : s.WF) (d p : Int)
    (hd : 0 ≤ d ∧ d < s.maxDevices) (hp : 0 ≤ p ∧ p ≤ 7) (value : Nat)
    (hv : value ≤ 15) (dp : Bool) :
    (s.setDigit d p value dp).rowByte d p =
      (if dp then charTable.getD value 0 ||| 0x80 else charTable.getD value 0) ∧
    (∀ j : Nat, ((s.setDigit d p value dp).rowByte d p).testBit j =
      if j = 7 then dp else (charTable.getD value 0).testBit j) ∧
    charTable.take 16 =
      [0x7E, 0x30, 0x6D, 0x79, 0x33, 0x5B, 0x5F, 0x70,
       0x7F, 0x7B, 0x77, 0x1F, 0x0D, 0x3D, 0x4F, 0x47] ∧
    (s.setDigit d p value dp).status =
      s.status.set (rowIndex d p) ((s.setDigit d p value dp).rowByte d p) ∧
    (∀ i : Nat, i ≠ rowIndex d p →
      (s.setDigit d p value dp).status.getD i 0 = s.status.getD i 0) ∧
    newEvents s (s.setDigit d p value dp) =
      transaction s d (p + 1).toNat ((s.setDigit d p value dp).rowByte d p) ∧
    s.setDigit d p value dp =
      ({ s with status :=
          s.status.set (rowIndex d p) ((s.setDigit d p value dp).rowByte d p) }
        ).spiTransfer d (p + 1).toNat ((s.setDigit d p value dp).rowByte d p) := by
  have hv2 : value % 256 = value := Nat.mod_eq_of_lt (by omega)
  have he : s.setDigit d p value dp =
      s.rowWrite d p (glyphByte (charTable.getD value 0) dp) := by
    rw [setDigit_eq s hs d p hd hp value (by omega) dp, hv2]
  have hb : (s.setDigit d p value dp).rowByte d p = glyphByte (charTable.getD value 0) dp := by
    rw [he, rowWrite_rowByte s hs d p hd hp]
  rw [hb, he]
  exact ⟨rfl, fun j => glyphByte_testBit _ (charTable_digit_lt value hv) dp j, by decide,
    rfl, fun i hi => rowWrite_other s d p _ i hi, rowWrite_events s d p _,
    rowWrite_spiTransfer s d p _ hd⟩

/-- Witness for C9: digit 0xA with decimal point at position 5 of device 2. -/
theorem setDigit_writes_glyph_witness :
    (chain4.setDigit 2 5 10 true).rowByte 2 5 = (charTable.getD 10 0 ||| 0x80) :=
  (setDigit_writes_glyph chain4 (by decide) 2 5 (by decide) (by decide) 10 (by decide)
    true).1

/-- C10: for a character code outside `[0, 127]` (an 8-bit `char`, so between
-128 and 255) `setChar(d, p, code, dp)` returns the very state that
`setChar(d, p, 32, dp)` returns; `charTable[32]` is the blank pattern 0, so on an
addressed position inside the chain the byte written is `0x00` without and
`0x80` with the decimal point; for a code in `[0, 127]` the byte written is
`charTable[code]`, with `0x80` or-ed in when `dp` holds.  In both cases the call
is one row write: that byte stored at `(d, p)` and one transaction
`(d, p+1, byte)`. -/
theorem setChar_blank_outside_ascii (s : LedControl) (d p code : Int) (dp : Bool)
    (hcode : -128 ≤ code ∧ code ≤ 255) :
    (¬ (0 ≤ code ∧ code ≤ 127) → s.setChar d p code dp = s.setChar d p 32 dp) ∧
    charTable.getD 32 0 = 0 ∧
    (s.WF → 0 ≤ d ∧ d < s.maxDevices → 0 ≤ p ∧ p ≤ 7 →
      (¬ (0 ≤ code ∧ code ≤ 127) →
        s.setChar d p code dp = s.rowWrite d p (if dp then 0x80 else 0x00)) ∧
      (0 ≤ code ∧ code ≤ 127 →
        s.setChar d p code dp =
          s.rowWrite d p
            (if dp then charTable.getD code.toNat 0 ||| 0x80
             else charTable.getD code.toNat 0))) := by
  have h32 : toByte 32 = 32 := by decide
  have hblank : charTable.getD 32 0 = 0 := by decide
  have hout : ¬ (0 ≤ code ∧ code ≤ 127) → toByte code > 127 := by
    intro h
    unfold toByte
    omega
  have hin : 0 ≤ code ∧ code ≤ 127 → toByte code = code.toNat := by
    intro h
    unfold toByte
    omega
  refine ⟨?_, hblank, ?_⟩
  · intro h
    simp only [LedControl.setChar, h32, if_pos (hout h)]
    simp
  · intro hs hd hp
    constructor
    · intro h
      rw [setChar_eq s hs d p hd hp, if_pos (hout h), hblank]
      cases dp <;> rfl
    · intro h
      have h2 : ¬ (toByte code > 127) := by
        rw [hin h]
        omega
      rw [setChar_eq s hs d p hd hp, if_neg h2, hin h]
      rfl

/-- Witness for C10: code 200 at position 5 of device 2 of the four-device chain. -/
theorem setChar_blank_outside_ascii_witness :
    ((-128 : Int) ≤ 200 ∧ (200 : Int) ≤ 255) ∧ ¬ ((0 : Int) ≤ 200 ∧ (200 : Int) ≤ 127) ∧
    chain4.setChar 2 5 200 false = chain4.setChar 2 5 32 false ∧
    chain4.setChar 2 5 200 true = chain4.rowWrite 2 5 0x80 :=
  ⟨by decide, by decide,
    (setChar_blank_outside_ascii chain4 2 5 200 false (by decide)).1 (by decide),
    ((setChar_blank_outside_ascii chain4 2 5 200 true (by decide)).2.2 (by decide)
      (by decide) (by decide)).1 (by decide)⟩

/-- C11: an out-of-range value is ignored whatever the address: `setDigit` with
a byte value above 15, `setScanLimit` with a limit outside `[0, 7]` and
`setIntensity` with an intensity outside `[0, 15]` each return the state they
were given, so the shadow buffer is unchanged and no transaction is recorded. -/
theorem values_out_of_range_ignored (s : LedControl) :
    (∀ (d p : Int) (value : Nat) (dp : Bool),
      15 < value → value < 256 → s.setDigit d p value dp = s) ∧
    (∀ d limit : Int, ¬ (0 ≤ limit ∧ limit ≤ 7) → s.setScanLimit d limit = s) ∧
    (∀ d intensity : Int, ¬ (0 ≤ intensity ∧ intensity ≤ 15) →
      s.setIntensity d intensity = s) := by
  refine ⟨?_, ?_, ?_⟩
  · intro d p value dp h1 h2
    have hv : value % 256 > 15 := by omega
    simp only [LedControl.setDigit]
    split_ifs <;> first | rfl | omega
  · intro d limit h
    simp only [LedControl.setScanLimit]
    split_ifs <;> first | rfl | omega
  · intro d intensity h
    simp only [LedControl.setIntensity]
    split_ifs <;> first | rfl | omega

/-- Witness for C11 on the four-device chain: digit value 16, scan limit 8 and
intensity 16 at valid addresses. -/
theorem values_out_of_range_ignored_witness :
    chain4.setDigit 1 2 16 true = chain4 ∧ chain4.setScanLimit 1 8 = chain4 ∧
    chain4.setIntensity 1 16 = chain4 :=
  ⟨(values_out_of_range_ignored chain4).1 1 2 16 true (by decide) (by decide),
   (values_out_of_range_ignored chain4).2.1 1 8 (by decide),
   (values_out_of_range_ignored chain4).2.2 1 16 (by decide)⟩

/-- C12: on a well-formed state `clear()` appends exactly the `8 * N` row-write
transactions, for each device `0 .. N-1` in order the opcodes 1 to 8 in order
with data 0, and leaves every shadow byte 0 (16 transactions when `N = 2`);
`clearDisplay(d)` for `d` inside the chain appends exactly those eight
transactions for device `d`, zeroes its eight rows and leaves every byte of
every other device unchanged. -/
theorem clear_writes_all_rows (s : LedControl) (hs : s.WF) :
    s.clear = s.update (List.replicate s.status.length 0)
      (txEvents s (forEachDevice s.maxDevices rowClears)) ∧
    newEvents s s.clear = txEvents s (forEachDevice s.maxDevices rowClears) ∧
    (forEachDevice s.maxDevices rowClears).length = 8 * s.maxDevices.toNat ∧
    (s.maxDevices = 2 → (forEachDevice s.maxDevices rowClears).length = 16) ∧
    (∀ d : Int, rowClears d =
      [(d, 1, 0), (d, 2, 0), (d, 3, 0), (d, 4, 0), (d, 5, 0), (d, 6, 0), (d, 7, 0), (d, 8, 0)]) ∧
    (∀ j : Nat, s.clear.status.getD j 0 = 0) ∧
    (∀ d : Nat, (d : Int) < s.maxDevices →
      newEvents s (s.clearDisplay d) = txEvents s (rowClears d) ∧
      (∀ r : Nat, r < 8 → (s.clearDisplay d).rowByte d r = 0) ∧
      (∀ j : Nat, (∀ r : Nat, r < 8 → j ≠ rowIndex d r) →
        (s.clearDisplay d).status.getD j 0 = s.status.getD j 0) ∧
      (s.clearDisplay d).status.length = s.status.length) := by
  have hc := clear_closed s hs
  have hlen := forEachDevice_length s.maxDevices rowClears 8 (fun i => by simp [rowClears])
  refine ⟨hc, ?_, hlen, ?_, rowClears_eq, ?_, ?_⟩
  · rw [hc]
    simp [newEvents, LedControl.update]
  · intro h2
    rw [hlen, h2]
    rfl
  · intro j
    rw [hc]
    by_cases hj : j < s.status.length
    · simp [LedControl.update, List.getElem?_replicate, hj]
    · simp [LedControl.update, List.getElem?_replicate, hj]
  · intro d hd
    obtain ⟨st, e, hl, _, hrows, hothers⟩ := clearDisplay_step s hs d hd
    rw [e]
    refine ⟨?_, hrows, hothers, hl⟩
    simp [newEvents, LedControl.update]

/-- Witness for C12: the fully lit two-device chain is blank after `clear()`. -/
theorem clear_writes_all_rows_witness :
    chain2.clear = chain2.update (List.replicate chain2.status.length 0)
      (txEvents chain2 (forEachDevice chain2.maxDevices rowClears)) ∧
    (forEachDevice chain2.maxDevices rowClears).length = 16 :=
  ⟨(clear_writes_all_rows chain2 (by decide)).1,
   (clear_writes_all_rows chain2 (by decide)).2.2.2.1 rfl⟩

/-- C14: for a device inside the chain and any state whatever, `shutdown(d, b)`
is exactly one transaction `(SHUTDOWN = 12, 0)` when `b` holds and
`(SHUTDOWN = 12, 1)` otherwise; `setScanLimit(d, l)` with `l` in `[0, 7]` is
exactly one transaction `(SCANLIMIT = 11, l)`; `setIntensity(d, i)` with `i` in
`[0, 15]` is exactly one transaction `(INTENSITY = 10, i)`; none of them changes
anything but the trace, in particular no shadow byte. -/
theorem control_setters_one_transaction (s : LedControl) (d : Int)
    (hd : 0 ≤ d ∧ d < s.maxDevices) :
    (∀ b : Bool,
      s.shutdown d b = s.withEvents (transaction s d 12 (if b then 0 else 1)) ∧
      s.shutdown d b = s.spiTransfer d 12 (if b then 0 else 1) ∧
      (s.shutdown d b).status = s.status) ∧
    (∀ l : Int, 0 ≤ l ∧ l ≤ 7 →
      s.setScanLimit d l = s.withEvents (transaction s d 11 l.toNat) ∧
      s.setScanLimit d l = s.spiTransfer d 11 l.toNat ∧
      (s.setScanLimit d l).status = s.status) ∧
    (∀ i : Int, 0 ≤ i ∧ i ≤ 15 →
      s.setIntensity d i = s.withEvents (transaction s d 10 i.toNat) ∧
      s.setIntensity d i = s.spiTransfer d 10 i.toNat ∧
      (s.setIntensity d i).status = s.status) ∧
    OP_SHUTDOWN = 12 ∧ OP_SCANLIMIT = 11 ∧ OP_INTENSITY = 10 := by
  have h1 : ¬ (d < 0 ∨ d ≥ s.maxDevices) := by omega
  refine ⟨?_, ?_, ?_, rfl, rfl, rfl⟩
  · intro b
    have e : s.shutdown d b = s.spiTransfer d 12 (if b then 0 else 1) := by
      simp only [LedControl.shutdown, if_neg h1, OP_SHUTDOWN]
    rw [e, spiTransfer_eq s d _ _ hd]
    exact ⟨rfl, rfl, rfl⟩
  · intro l hl
    have e : s.setScanLimit d l = s.spiTransfer d 11 l.toNat := by
      have h2 : l ≥ 0 ∧ l < 8 := by omega
      simp only [LedControl.setScanLimit, if_neg h1, if_pos h2, OP_SCANLIMIT]
      rw [toByte_small l (by omega)]
    rw [e, spiTransfer_eq s d _ _ hd]
    exact ⟨rfl, rfl, rfl⟩
  · intro i hi
    have e : s.setIntensity d i = s.spiTransfer d 10 i.toNat := by
      have h2 : i ≥ 0 ∧ i < 16 := by omega
      simp only [LedControl.setIntensity, if_neg h1, if_pos h2, OP_INTENSITY]
      rw [toByte_small i (by omega)]
    rw [e, spiTransfer_eq s d _ _ hd]
    exact ⟨rfl, rfl, rfl⟩

/-- Witness for C14: device 2 of the four-device chain leaves shutdown. -/
theorem control_setters_one_transaction_witness :
    chain4.shutdown 2 false = chain4.withEvents (transaction chain4 2 12 1) :=
  ((control_setters_one_transaction chain4 2 (by decide)).1 false).1

/-- C15, evaluated on the code: the header documents the scan limit as the
number of digits, 1 to 8, but `setScanLimit(addr, 8)` is ignored by every state
for every address: nothing is written.  Shown on the one-device chain fresh
from its constructor on a 16-bit board and in general; limits 1 to 7 are
accepted. -/
theorem setScanLimit_eight_ignored :
    (∃ s : LedControl, LedControl.newSoftware avr 11 13 10 1 = some s ∧
      s.maxDevices = 1 ∧ s.setScanLimit 0 8 = s) ∧
    (∀ (s : LedControl) (addr : Int), s.setScanLimit addr 8 = s) ∧
    (∀ (s : LedControl) (addr limit : Int), 0 ≤ addr ∧ addr < s.maxDevices →
      1 ≤ limit ∧ limit ≤ 7 →
      s.setScanLimit addr limit = s.spiTransfer addr OP_SCANLIMIT limit.toNat) := by
  have h8 : ∀ (s : LedControl) (addr : Int), s.setScanLimit addr 8 = s := by
    intro s addr
    simp only [LedControl.setScanLimit]
    split_ifs <;> first | rfl | omega
  refine ⟨⟨_, litRow_built, ?_, h8 _ _⟩, h8, ?_⟩
  · exact maxDevices_initSoftware (List.replicate 8 0) 11 13 10 1
  intro s addr limit ha hl
  have h1 : ¬ (addr < 0 ∨ addr ≥ s.maxDevices) := by omega
  have h2 : limit ≥ 0 ∧ limit < 8 := by omega
  simp only [LedControl.setScanLimit, if_neg h1, if_pos h2]
  rw [toByte_small limit (by omega)]

/-- C16: on a well-formed state and for an intensity in `[0, 15]`,
`begin(intensity)` appends, for each device `i = 0 .. N-1` in order, exactly
the ten transactions `(SHUTDOWN = 12, 1)`, `(INTENSITY = 10, intensity)` and the
eight row clears `(1..8, 0)`, and leaves every shadow byte 0. -/
theorem begin_activates_every_device (s : LedControl) (hs : s.WF) (intensity : Int)
    (hint : 0 ≤ intensity ∧ intensity ≤ 15) :
    s.begin intensity = s.update (List.replicate s.status.length 0)
      (txEvents s (forEachDevice s.maxDevices (beginSequence intensity.toNat))) ∧
    newEvents s (s.begin intensity) =
      txEvents s (forEachDevice s.maxDevices (beginSequence intensity.toNat)) ∧
    (∀ i : Int, beginSequence intensity.toNat i =
      [(i, 12, 1), (i, 10, intensity.toNat),
       (i, 1, 0), (i, 2, 0), (i, 3, 0), (i, 4, 0), (i, 5, 0), (i, 6, 0), (i, 7, 0),
       (i, 8, 0)]) ∧
    (forEachDevice s.maxDevices (beginSequence intensity.toNat)).length =
      10 * s.maxDevices.toNat ∧
    (∀ j : Nat, (s.begin intensity).status.getD j 0 = 0) ∧
    ((intensity.toNat : Int) = intensity ∧ OP_SHUTDOWN = 12 ∧ OP_INTENSITY = 10) := by
  have hb := begin_closed s hs intensity hint
  have hseq : ∀ i : Int, beginSequence intensity.toNat i =
      [(i, 12, 1), (i, 10, intensity.toNat),
       (i, 1, 0), (i, 2, 0), (i, 3, 0), (i, 4, 0), (i, 5, 0), (i, 6, 0), (i, 7, 0),
       (i, 8, 0)] := by
    intro i
    simp [beginSequence, rowClears_eq]
  refine ⟨hb, ?_, hseq, ?_, ?_, by omega, rfl, rfl⟩
  · rw [hb]
    simp [newEvents, LedControl.update]
  · exact forEachDevice_length _ _ 10 (fun i => by rw [hseq]; rfl)
  · intro j
    rw [hb]
    by_cases hj : j < s.status.length
    · simp [LedControl.update, List.getElem?_replicate, hj]
    · simp [LedControl.update, List.getElem?_replicate, hj]

/-- Witness for C16: the fully lit two-device chain started at intensity 8. -/
theorem begin_activates_every_device_witness :
    chain2.begin 8 = chain2.update (List.replicate chain2.status.length 0)
      (txEvents chain2 (forEachDevice chain2.maxDevices (beginSequence (8 : Int).toNat))) :=
  (begin_activates_every_device chain2 (by decide) 8 (by decide)).1

/-- C17: `drawPixel(x, y, color)` with both coordinates in `[0, 8)` is exactly
`setLed(0, y, x, color != 0)`, on the shadow buffer and on the trace alike, and
so on a well-formed state one row write to row `y` of device 0 in which only bit
`7 - x` can change; with a coordinate outside `[0, 8)` it returns the state it
was given. -/
theorem drawPixel_is_setLed (s : LedControl) (x y : Int) (color : Nat) :
    (0 ≤ x ∧ x < 8 ∧ 0 ≤ y ∧ y < 8 →
      s.drawPixel x y color = s.setLed 0 y x (decide (color ≠ 0)) ∧
      (s.WF → s.drawPixel x y color =
        s.rowWrite 0 y (ledByte (s.rowByte 0 y) x.toNat (decide (color ≠ 0))))) ∧
    (¬ (0 ≤ x ∧ x < 8 ∧ 0 ≤ y ∧ y < 8) → s.drawPixel x y color = s) := by
  have hc : decide (color > 0) = decide (color ≠ 0) := by
    rcases Nat.eq_zero_or_pos color with h | h
    · simp [h]
    · have : color ≠ 0 := by omega
      simp [h, this]
  constructor
  · intro h
    have h1 : ¬ (x < 0 ∨ x ≥ 8 ∨ y < 0 ∨ y ≥ 8) := by omega
    have e : s.drawPixel x y color = s.setLed 0 y x (decide (color ≠ 0)) := by
      simp only [LedControl.drawPixel, if_neg h1, hc]
    refine ⟨e, fun hs => ?_⟩
    rw [e]
    exact setLed_eq s hs 0 y x ⟨le_refl 0, by have := hs.1; omega⟩ (by omega) (by omega) _
  · intro h
    have h1 : x < 0 ∨ x ≥ 8 ∨ y < 0 ∨ y ≥ 8 := by omega
    simp only [LedControl.drawPixel, if_pos h1]

/-- Witness for C17: pixel (3, 2) lit with colour 1, and pixel (8, 2) ignored. -/
theorem drawPixel_is_setLed_witness :
    chain4.drawPixel 3 2 1 = chain4.setLed 0 2 3 (decide ((1 : Nat) ≠ 0)) ∧
    chain4.drawPixel 8 2 1 = chain4 :=
  ⟨((drawPixel_is_setLed chain4 3 2 1).1 (by decide)).1,
   (drawPixel_is_setLed chain4 8 2 1).2 (by decide)⟩

/-- C18: backend equivalence.  For every platform, every pin assignment, every
device count for which the two constructors return a driver, and every sequence
of public calls, the driver built by the bit-banged constructor and the driver
built by the block-transfer constructor, run through the same calls, end with
the same shadow buffer and the same wire activity: the same bytes in the same
order, with the same chip-select writes around them.  The first stays in
bit-banged mode and the second in block-transfer mode.  There is one list of
transactions of which both traces are the rendering after the pin set-up of
their constructor, and the rendering of a transaction in block-transfer mode is
that of bit-banged mode, byte for byte on the wire, with `beginTransaction`
before it and `endTransaction` after it. -/
theorem backends_agree (p : Platform) (dataPin clkPin csPin numDevices : Int) (ops : List Op)
    (sw hw : LedControl)
    (hsw : LedControl.newSoftware p dataPin clkPin csPin numDevices = some sw)
    (hhw : LedControl.newHardware p csPin numDevices = some hw) :
    (runOps sw ops).status = (runOps hw ops).status ∧
    wireView (runOps sw ops).bus = wireView (runOps hw ops).bus ∧
    wireBytes (runOps sw ops).bus = wireBytes (runOps hw ops).bus ∧
    (runOps sw ops).oob = (runOps hw ops).oob ∧
    (runOps sw ops).maxDevices = (runOps hw ops).maxDevices ∧
    (runOps sw ops).SPI_CS = (runOps hw ops).SPI_CS ∧
    (runOps sw ops).hardwareSPI = false ∧
    (runOps hw ops).hardwareSPI = true ∧
    (∃ L : List (Int × Nat × Nat),
      (runOps sw ops).bus =
        [BusEvent.pinMode dataPin, BusEvent.pinMode clkPin, BusEvent.pinMode csPin,
          BusEvent.digitalWrite csPin true] ++ txEvents (runOps sw ops) L ∧
      (runOps hw ops).bus =
        [BusEvent.pinMode csPin, BusEvent.digitalWrite csPin true, BusEvent.spiBegin] ++
          txEvents (runOps hw ops) L) ∧
    (∀ (s : LedControl) (t : Int) (op x : Nat), ∃ core : List BusEvent,
      transaction s t op x =
        (if s.hardwareSPI then [BusEvent.beginTransaction] else []) ++ core ++
        (if s.hardwareSPI then [BusEvent.endTransaction] else []) ∧
      (wireView core).length = core.length ∧
      wireView core =
        [Wire.select s.SPI_CS false] ++
        (expectedFrames s.maxDevices.toNat t op x).flatMap
          (fun f => [Wire.byte f.1, Wire.byte f.2]) ++
        [Wire.select s.SPI_CS true]) := by
  obtain ⟨status, N, rfl, rfl⟩ :=
    built_together p dataPin clkPin csPin numDevices sw hw hsw hhw
  have hn := norm_backends status dataPin clkPin csPin N ops
  have hbus : canon (runOps (LedControl.initSoftware status dataPin clkPin csPin N) ops).bus =
      canon (runOps (LedControl.initHardware status csPin N) ops).bus :=
    congrArg LedControl.bus hn
  have hst : (norm (runOps (LedControl.initSoftware status dataPin clkPin csPin N) ops)).status =
      (norm (runOps (LedControl.initHardware status csPin N) ops)).status :=
    congrArg LedControl.status hn
  have hoob : (norm (runOps (LedControl.initSoftware status dataPin clkPin csPin N) ops)).oob =
      (norm (runOps (LedControl.initHardware status csPin N) ops)).oob :=
    congrArg LedControl.oob hn
  have hmd :
      (norm (runOps (LedControl.initSoftware status dataPin clkPin csPin N) ops)).maxDevices =
      (norm (runOps (LedControl.initHardware status csPin N) ops)).maxDevices :=
    congrArg LedControl.maxDevices hn
  have hcsp :
      (norm (runOps (LedControl.initSoftware status dataPin clkPin csPin N) ops)).SPI_CS =
      (norm (runOps (LedControl.initHardware status csPin N) ops)).SPI_CS :=
    congrArg LedControl.SPI_CS hn
  have hcs := (config_runOps ops
    (LedControl.initSoftware status dataPin clkPin csPin N)).trans
      (config_initSoftware status dataPin clkPin csPin N)
  have hch := (config_runOps ops (LedControl.initHardware status csPin N)).trans
    (config_initHardware status csPin N)
  have happ : ∀ xs ys : List BusEvent, wireView (xs ++ ys) = wireView xs ++ wireView ys := by
    intro xs ys
    induction xs with
    | nil => rfl
    | cons e es ih => cases e <;> simp [wireView, ih]
  refine ⟨hst, ?_, ?_, hoob, hmd, hcsp, ?_, ?_,
    backends_log status dataPin clkPin csPin N ops, ?_⟩
  · have := congrArg wireView hbus
    rwa [wireView_canon, wireView_canon] at this
  · have := congrArg wireBytes hbus
    rwa [wireBytes_canon, wireBytes_canon] at this
  · exact congrArg (fun c : Int × Int × Int × Int × Bool => c.2.2.2.2) hcs
  · exact congrArg (fun c : Int × Int × Int × Int × Bool => c.2.2.2.2) hch
  · intro s t op x
    have hw : ∀ fs : List (Nat × Nat),
        wireView (fs.flatMap (fun f => [wireEvent s f.1, wireEvent s f.2])) =
          fs.flatMap (fun f => [Wire.byte f.1, Wire.byte f.2]) := by
      intro fs
      induction fs with
      | nil => rfl
      | cons f fs ih =>
        rw [List.flatMap_cons, List.flatMap_cons, happ, ih]
        cases hh : s.hardwareSPI <;> simp [wireEvent, hh, wireView]
    have hlen : ∀ fs : List (Nat × Nat),
        (fs.flatMap (fun f => [Wire.byte f.1, Wire.byte f.2])).length =
          (fs.flatMap (fun f => [wireEvent s f.1, wireEvent s f.2])).length := by
      intro fs
      induction fs with
      | nil => rfl
      | cons f fs ih =>
        rw [List.flatMap_cons, List.flatMap_cons, List.length_append, List.length_append, ih]
        rfl
    refine ⟨[BusEvent.digitalWrite s.SPI_CS false] ++
      (expectedFrames s.maxDevices.toNat t op x).flatMap
        (fun f => [wireEvent s f.1, wireEvent s f.2]) ++
      [BusEvent.digitalWrite s.SPI_CS true], ?_, ?_, ?_⟩
    · simp [transaction]
    · rw [happ, happ, hw]
      simp [wireView, hlen]
    · rw [happ, happ, hw]
      rfl

/-- Witness for C18: the one-device chain on the 16-bit board built by either
constructor, then `setRow(0, 0, 0xFF)` and `shutdown(0, false)`. -/
theorem backends_agree_witness :
    LedControl.newSoftware avr 11 13 10 1 =
      some (LedControl.initSoftware (List.replicate 8 0) 11 13 10 1) ∧
    LedControl.newHardware avr 10 1 =
      some (LedControl.initHardware (List.replicate 8 0) 10 1) ∧
    wireBytes (runOps (LedControl.initSoftware (List.replicate 8 0) 11 13 10 1)
        [Op.setRow 0 0 255, Op.shutdown 0 false]).bus =
      wireBytes (runOps (LedControl.initHardware (List.replicate 8 0) 10 1)
        [Op.setRow 0 0 255, Op.shutdown 0 false]).bus :=
  ⟨rfl, rfl,
   (backends_agree avr 11 13 10 1 [Op.setRow 0 0 255, Op.shutdown 0 false]
    (LedControl.initSoftware (List.replicate 8 0) 11 13 10 1)
    (LedControl.initHardware (List.replicate 8 0) 10 1) rfl rfl).2.2.1⟩

/-- C19, evaluated on the code: index safety fails.  On a board with a 16-bit
`int` the constructor calls `LedControl(11, 13, 10, 8192)` and
`LedControl(10, 8192)` compute the buffer size `8192 * 8`, which wraps to 0;
the buffer has no bytes, and the `clearDisplay(0)` of the first pass of the
initialisation loop writes `status[0]` outside it: the state the constructor
returns has the out-of-bounds flag set.  The same happens on a 32-bit board for
536870912 devices.  Where the products `numDevices * 8` and
`8 * max(1, numDevices)` are values of type `int`, every reachable state has a
buffer of exactly `8 * N` bytes and a clear flag, and the flag is still clear
after any further public call with arbitrary arguments.  Every access to the shadow buffer and to `charTable` goes through
`store`, `touch` or `touchTable`, which leave the flag clear only if it was
clear and the index lies inside the buffer, respectively inside the 128-entry
table; a transaction never touches the flag. -/
theorem index_safety_lost_on_wrapped_size :
    (∃ s : LedControl, LedControl.newSoftware avr 11 13 10 8192 = some s ∧
      Reachable avr 8192 s ∧ s.maxDevices = 8192 ∧ s.status.length = 0 ∧ s.oob = true) ∧
    (∃ s : LedControl, LedControl.newHardware avr 10 8192 = some s ∧
      Reachable avr 8192 s ∧ s.maxDevices = 8192 ∧ s.status.length = 0 ∧ s.oob = true) ∧
    (∃ s : LedControl, LedControl.newSoftware arm32 11 13 10 536870912 = some s ∧
      Reachable arm32 536870912 s ∧ s.status.length = 0 ∧ s.oob = true) ∧
    (∀ (s : LedControl) (d : Int), s.status.length = 0 → 0 ≤ d ∧ d < s.maxDevices →
      (s.clearDisplay d).oob = true) ∧
    (∀ (p : Platform) (numDevices : Int) (s : LedControl),
      p.fits numDevices → Reachable p numDevices s →
      s.oob = false ∧ (s.status.length : Int) = 8 * s.maxDevices ∧ 1 ≤ s.maxDevices ∧
      (∀ op : Op, (op.run s).oob = false) ∧
      (∀ ops : List Op, (runOps s ops).oob = false)) ∧
    charTable.length = 128 ∧
    (∀ (s1 : LedControl) (i : Int) (v : Nat),
      (s1.store i v).oob = false ↔ s1.oob = false ∧ 0 ≤ i ∧ i < (s1.status.length : Int)) ∧
    (∀ (s1 : LedControl) (i : Int),
      (s1.touch i).oob = false ↔ s1.oob = false ∧ 0 ≤ i ∧ i < (s1.status.length : Int)) ∧
    (∀ (s1 : LedControl) (i : Nat),
      (s1.touchTable i).oob = false ↔ s1.oob = false ∧ i < charTable.length) ∧
    (∀ (s1 : LedControl) (t : Int) (op x : Nat), (s1.spiTransfer t op x).oob = s1.oob) := by
  have h1 := initSoftware_empty 11 13 10 8192 (by norm_num)
  have h2 := initHardware_empty 10 8192 (by norm_num)
  have h3 := initSoftware_empty 11 13 10 536870912 (by norm_num)
  refine ⟨⟨_, avr_wrapped_software,
      Reachable.software 11 13 10 _ (by decide) avr_wrapped_software, h1.2.2, h1.2.1, h1.1⟩,
    ⟨_, avr_wrapped_hardware,
      Reachable.hardware 10 _ (by decide) avr_wrapped_hardware, h2.2.2, h2.2.1, h2.1⟩,
    ⟨_, arm32_wrapped_software,
      Reachable.software 11 13 10 _ (by decide) arm32_wrapped_software, h3.2.1, h3.1⟩,
    fun s d hlen hd => clearDisplay_empty_oob s hlen d hd, ?_, charTable_length,
    store_oob, touch_oob, touchTable_oob, spiTransfer_oob⟩
  intro p numDevices s hf h
  have hs := safe_reachable p numDevices hf s h
  refine ⟨hs.2, ?_, hs.1.1, fun op => (safe_run s hs op).2, ?_⟩
  · have := hs.1.2.1
    omega
  · intro ops
    exact (foldl_keeps Safe Op.run ops s hs (fun s1 op _ h1 => safe_run s1 h1 op)).2

/-- C20: for a value `v` in `[0, 15]`, `setDigit(d, p, v, dp)` returns the very
state that `setChar(d, p, h, dp)` returns for `h` the ASCII hexadecimal
character of `v`, upper or lower case, in every state and for every address;
equivalently `charTable[v] = charTable[48+v]` for `v` in 0..9 and
`charTable[v] = charTable[55+v] = charTable[87+v]` for `v` in 10..15. -/
theorem setDigit_agrees_with_setChar (s : LedControl) (d p : Int) (v : Nat) (hv : v ≤ 15)
    (dp lower : Bool) :
    s.setDigit d p v dp = s.setChar d p (hexChar v lower) dp ∧
    (v < 10 → hexChar v lower = 48 + v ∧ charTable.getD (48 + v) 0 = charTable.getD v 0) ∧
    (10 ≤ v → hexChar v false = 55 + v ∧ hexChar v true = 87 + v ∧
      charTable.getD (55 + v) 0 = charTable.getD v 0 ∧
      charTable.getD (87 + v) 0 = charTable.getD v 0) := by
  have hi := hexChar_index v hv lower
  have ht := charTable_hex v hv
  have hm : v % 256 = v := Nat.mod_eq_of_lt (by omega)
  refine ⟨?_, ?_, ?_⟩
  · have h15 : ¬ (v > 15) := by omega
    have h127 : ¬ (toByte (hexChar v lower) > 127) := by omega
    simp only [LedControl.setDigit, LedControl.setChar, hm, h15, or_false, if_neg h127,
      hi.2]
    have e1 : s.touchTable v = s := touchTable_eq s v (by omega)
    have e2 : s.touchTable (toByte (hexChar v lower)) = s := touchTable_eq s _ (by omega)
    rw [e1, e2]
  · intro h10
    exact ⟨by simp [hexChar, h10], ht.1 h10⟩
  · intro h10
    have hn : ¬ (v < 10) := by omega
    exact ⟨by simp [hexChar, hn], by simp [hexChar, hn], (ht.2 h10).1, (ht.2 h10).2⟩

/-- Witness for C20: digit 0xB against the characters `B` and `b`. -/
theorem setDigit_agrees_with_setChar_witness :
    chain4.setDigit 1 2 11 true = chain4.setChar 1 2 (hexChar 11 false) true ∧
    chain4.setDigit 1 2 11 true = chain4.setChar 1 2 (hexChar 11 true) true :=
  ⟨(setDigit_agrees_with_setChar chain4 1 2 11 (by decide) true false).1,
   (setDigit_agrees_with_setChar chain4 1 2 11 (by decide) true true).1⟩

end MaxLedControl
